import Mathlib

/-!
Shallow embedding of the artisan-market core services
(`src/services/shopping_cart_service.py`, `src/services/product_search_service.py`,
`src/services/search_service.py`, `src/services/recommendation_service.py`)
together with proofs about the frozen behavioural claims.

Modelling conventions:
* machine integers are `Int`, money and scores are `Rat`;
* the relational store is a record of lists of rows, the redis cart store is an
  association list keyed by user id, mirroring one python dict / one SQL table each;
* python dicts become association lists that keep insertion order: updating an
  existing key keeps its position, a fresh key is appended (CPython semantics);
* wall-clock values (`datetime.now()`) and the order-id timestamp are passed in as
  explicit parameters `now` / `ts`;
* the code runs sequentially; store exceptions on the conversion write path are
  rolled back by `get_cursor` and are not reachable in the pure model.
-/

/-- One cart line as stored in redis: `{"quantity": .., "price": .., "name": ..}`.
The price and name are the snapshot taken when the line was created. -/
structure CartItem where
  quantity : Int
  price : Rat
  name : String
deriving DecidableEq, Repr

/-- A row of the `products` table (columns used by the services). -/
structure Product where
  id : String
  name : String
  category : String
  price : Rat
  stock : Int
  description : String
  tags : Option String
  created_at : Int
deriving DecidableEq, Repr

/-- A row of the `orders` table (the code only inserts id and user_id). -/
structure Order where
  id : String
  user_id : String
deriving DecidableEq, Repr

/-- A row of the `order_items` table. -/
structure OrderItem where
  id : String
  order_id : String
  product_id : String
  quantity : Int
deriving DecidableEq, Repr

/-- The relational store: `products`, `categories` (names only), `orders`,
`order_items`. -/
structure DB where
  products : List Product
  categories : List String
  orders : List Order
  order_items : List OrderItem
deriving DecidableEq, Repr

/-- A stored cart value plus the absolute expiry instant of its redis key
(`setex` with `cart_ttl` seconds sets it to `now + 86400`). The JSON
`created_at`/`updated_at` metadata fields, which no operation reads back,
are elided. -/
structure StoredCart where
  items : List (String × CartItem)
  expiresAt : Int
deriving DecidableEq, Repr

/-- Whole-system state: relational store plus the redis cart keyspace
(`cart:<user_id>` becomes the association key `user_id`). -/
structure SysState where
  db : DB
  carts : List (String × StoredCart)
deriving DecidableEq, Repr

/-- Dictionary lookup on an association list (python `d.get(k)` / `k in d`). -/
def alookup (k : String) : List (String × β) → Option β
  | [] => none
  | (k₂, v) :: rest => if k₂ = k then some v else alookup k rest

/-- Dictionary write `d[k] = v`: replace in place if the key exists, append
otherwise (CPython insertion-order semantics). -/
def aupsert (k : String) (v : β) : List (String × β) → List (String × β)
  | [] => [(k, v)]
  | (k₂, w) :: rest => if k₂ = k then (k, v) :: rest else (k₂, w) :: aupsert k v rest

/-- Dictionary or keyspace delete (`del d[k]`, redis `delete(key)`): afterwards
the key has no binding. -/
def aremove (k : String) (l : List (String × β)) : List (String × β) :=
  l.filter (fun pr => decide (pr.1 ≠ k))

/-- `_get_product_info`: `SELECT p.*, c.name FROM products p JOIN categories c ON
p.category = c.name WHERE p.id = %s` with `fetchone()` — the first product row
with the requested id whose category resolves in `categories`. -/
def get_product_info (db : DB) (product_id : String) : Option Product :=
  db.products.find? (fun p => decide (p.id = product_id ∧ p.category ∈ db.categories))

/-- Python `round` (used as `round(total_price, 2)`): round-half-to-even of the
ideal rational value. -/
def roundHalfEven (q : Rat) : Int :=
  let f : Int := q.floor
  let r : Rat := q - (f : Rat)
  if r < 1 / 2 then f
  else if 1 / 2 < r then f + 1
  else if f % 2 = 0 then f else f + 1

/-- Rounding to two decimal places, as `round(x, 2)`. -/
def round2 (q : Rat) : Rat := ((roundHalfEven (q * 100) : Int) : Rat) / 100

/-- Result of `_calculate_cart_totals`. -/
structure CartTotals where
  total_items : Int
  total_price : Rat
  item_count : Nat
deriving DecidableEq, Repr

/-- `_calculate_cart_totals`: sum of quantities, rounded sum of quantity×price,
number of lines. -/
def calculate_cart_totals (items : List (String × CartItem)) : CartTotals :=
  { total_items := (items.map (fun pr => pr.2.quantity)).sum
    total_price := round2 ((items.map (fun pr => (pr.2.quantity : Rat) * pr.2.price)).sum)
    item_count := items.length }

/-- Result dict of `add_item` / `remove_item` / `update_item_quantity`. -/
structure MutResult where
  success : Bool
  message : String
  cart_items : Option (List (String × CartItem))
  summary : Option CartTotals
deriving DecidableEq, Repr

/-- The `cart_ttl` constant (24 hours, in seconds). -/
def cart_ttl : Int := 86400

/-- `add_item(user_id, product_id, quantity)`. -/
def add_item (st : SysState) (now : Int) (user_id product_id : String) (quantity : Int) :
    MutResult × SysState :=
  if quantity ≤ 0 then
    ({ success := false, message := "Quantity must be positive",
       cart_items := none, summary := none }, st)
  else
    match get_product_info st.db product_id with
    | none =>
      ({ success := false, message := "Product not found",
         cart_items := none, summary := none }, st)
    | some p =>
      if p.stock < quantity then
        ({ success := false,
           message := "Insufficient stock. Available: " ++ toString p.stock,
           cart_items := none, summary := none }, st)
      else
        let items0 : List (String × CartItem) :=
          match alookup user_id st.carts with
          | some c => c.items
          | none => []
        match alookup product_id items0 with
        | some it =>
          let newq := it.quantity + quantity
          if p.stock < newq then
            ({ success := false,
               message := "Cannot add " ++ toString quantity ++
                 " items. Total would exceed stock (" ++ toString p.stock ++ ")",
               cart_items := none, summary := none }, st)
          else
            let items1 := aupsert product_id { it with quantity := newq } items0
            ({ success := true, message := "Item added to cart",
               cart_items := some items1, summary := some (calculate_cart_totals items1) },
             { st with carts := aupsert user_id ⟨items1, now + cart_ttl⟩ st.carts })
        | none =>
          let items1 := items0 ++ [(product_id,
            { quantity := quantity, price := p.price, name := p.name })]
          ({ success := true, message := "Item added to cart",
             cart_items := some items1, summary := some (calculate_cart_totals items1) },
           { st with carts := aupsert user_id ⟨items1, now + cart_ttl⟩ st.carts })

/-- `remove_item(user_id, product_id)`. -/
def remove_item (st : SysState) (now : Int) (user_id product_id : String) :
    MutResult × SysState :=
  match alookup user_id st.carts with
  | none =>
    ({ success := false, message := "Item not found in cart",
       cart_items := none, summary := none }, st)
  | some c =>
    match alookup product_id c.items with
    | none =>
      ({ success := false, message := "Item not found in cart",
         cart_items := none, summary := none }, st)
    | some _ =>
      let items1 := aremove product_id c.items
      if items1 = [] then
        ({ success := true, message := "Item removed from cart",
           cart_items := some [], summary := some (calculate_cart_totals []) },
         { st with carts := aremove user_id st.carts })
      else
        ({ success := true, message := "Item removed from cart",
           cart_items := some items1, summary := some (calculate_cart_totals items1) },
         { st with carts := aupsert user_id ⟨items1, now + cart_ttl⟩ st.carts })

/-- `update_item_quantity(user_id, product_id, quantity)`; `quantity = 0`
delegates to `remove_item`. -/
def update_item_quantity (st : SysState) (now : Int) (user_id product_id : String)
    (quantity : Int) : MutResult × SysState :=
  if quantity < 0 then
    ({ success := false, message := "Quantity cannot be negative",
       cart_items := none, summary := none }, st)
  else if quantity = 0 then
    remove_item st now user_id product_id
  else
    match get_product_info st.db product_id with
    | none =>
      ({ success := false, message := "Product not found",
         cart_items := none, summary := none }, st)
    | some p =>
      if p.stock < quantity then
        ({ success := false,
           message := "Insufficient stock. Available: " ++ toString p.stock,
           cart_items := none, summary := none }, st)
      else
        match alookup user_id st.carts with
        | none =>
          ({ success := false, message := "Item not found in cart",
             cart_items := none, summary := none }, st)
        | some c =>
          match alookup product_id c.items with
          | none =>
            ({ success := false, message := "Item not found in cart",
               cart_items := none, summary := none }, st)
          | some it =>
            let items1 := aupsert product_id { it with quantity := quantity } c.items
            ({ success := true, message := "Item quantity updated",
               cart_items := some items1, summary := some (calculate_cart_totals items1) },
             { st with carts := aupsert user_id ⟨items1, now + cart_ttl⟩ st.carts })

/-- Result dict of `get_cart`. -/
structure GetCartResult where
  success : Bool
  cart_items : List (String × CartItem)
  summary : CartTotals
deriving DecidableEq, Repr

/-- `get_cart(user_id)` (read-only). -/
def get_cart (st : SysState) (user_id : String) : GetCartResult :=
  let items :=
    match alookup user_id st.carts with
    | some c => c.items
    | none => []
  { success := true, cart_items := items, summary := calculate_cart_totals items }

/-- The summary literal returned by `clear_cart`
(only `total_items` and `total_price`, no `item_count`). -/
structure ClearSummary where
  total_items : Int
  total_price : Rat
deriving DecidableEq, Repr

/-- Result dict of `clear_cart`. -/
structure ClearResult where
  success : Bool
  message : String
  cart_items : List (String × CartItem)
  summary : ClearSummary
deriving DecidableEq, Repr

/-- `clear_cart(user_id)`: unconditionally delete the redis key and answer with
the fixed empty-cart payload. -/
def clear_cart (st : SysState) (user_id : String) : ClearResult × SysState :=
  ({ success := true, message := "Cart cleared", cart_items := [],
     summary := { total_items := 0, total_price := 0 } },
   { st with carts := aremove user_id st.carts })

/-- Result dict of `convert_cart_to_order`. -/
structure ConvResult where
  success : Bool
  message : String
  order_id : Option String
  order_summary : Option CartTotals
deriving DecidableEq, Repr

/-- The pre-conversion re-validation loop of `convert_cart_to_order`: walk the
cart lines in order and report the first failure message, `none` if every line
passes (product resolves and its live stock covers the requested quantity). -/
def validate_items (db : DB) : List (String × CartItem) → Option String
  | [] => none
  | (pid, it) :: rest =>
    match get_product_info db pid with
    | none => some ("Product " ++ pid ++ " not found")
    | some p =>
      if p.stock < it.quantity then
        some ("Insufficient stock for " ++ p.name ++ ". Available: " ++ toString p.stock)
      else validate_items db rest

/-- `UPDATE products SET stock = stock - %s WHERE id = %s`. -/
def dec_stock (db : DB) (pid : String) (q : Int) : DB :=
  { db with products :=
      db.products.map (fun p => if p.id = pid then { p with stock := p.stock - q } else p) }

/-- The write loop of `convert_cart_to_order`: per cart line, insert one
`order_items` row (with the deterministic id `order_item_<order_id>_<pid>`) and
decrement the stock of that product. -/
def apply_order_items (order_id : String) (db : DB) :
    List (String × CartItem) → DB
  | [] => db
  | (pid, it) :: rest =>
    apply_order_items order_id
      (dec_stock
        { db with order_items :=
            db.order_items ++
              [{ id := "order_item_" ++ order_id ++ "_" ++ pid, order_id := order_id,
                 product_id := pid, quantity := it.quantity }] }
        pid it.quantity)
      rest

/-- `convert_cart_to_order(user_id, shipping_address)`. `ts` stands for the
`datetime.now().strftime(..)` timestamp baked into the order id; the shipping
address is accepted but never persisted by the code. -/
def convert_cart_to_order (st : SysState) (ts : String) (user_id : String)
    (_shipping_address : List (String × String)) : ConvResult × SysState :=
  match alookup user_id st.carts with
  | none =>
    ({ success := false, message := "Cart is empty",
       order_id := none, order_summary := none }, st)
  | some c =>
    if c.items = [] then
      ({ success := false, message := "Cart is empty",
         order_id := none, order_summary := none }, st)
    else
      match validate_items st.db c.items with
      | some m =>
        ({ success := false, message := m, order_id := none, order_summary := none }, st)
      | none =>
        let summary := calculate_cart_totals c.items
        let order_id := "order_" ++ user_id ++ "_" ++ ts
        let db1 := { st.db with orders := st.db.orders ++ [{ id := order_id, user_id := user_id }] }
        let db2 := apply_order_items order_id db1 c.items
        ({ success := true, message := "Order created successfully",
           order_id := some order_id, order_summary := some summary },
         { db := db2, carts := aremove user_id st.carts })

/-- One cart line fails the conversion re-validation: its product no longer
resolves, or its requested quantity exceeds the live stock. -/
def bad_line (db : DB) (pid : String) (it : CartItem) : Bool :=
  match get_product_info db pid with
  | none => true
  | some p => decide (p.stock < it.quantity)

/-- Every product row of the relational store has non-negative stock. -/
def stocks_nonneg (db : DB) : Prop := ∀ p ∈ db.products, 0 ≤ p.stock

/-- Product ids are unique (the id column is the primary key). -/
def products_nodup (db : DB) : Prop := (db.products.map Product.id).Nodup

/-- Every stored cart is a genuine dict: its line keys are pairwise distinct. -/
def carts_wf (st : SysState) : Prop :=
  ∀ pr ∈ st.carts, ((pr.2 : StoredCart).items.map Prod.fst).Nodup

instance (db : DB) : Decidable (stocks_nonneg db) := by
  unfold stocks_nonneg
  infer_instance

instance (db : DB) : Decidable (products_nodup db) := by
  unfold products_nodup
  infer_instance

instance (st : SysState) : Decidable (carts_wf st) := by
  unfold carts_wf
  infer_instance

/-- Character-list version of `startswith`. -/
def chars_starts_with : List Char → List Char → Bool
  | [], _ => true
  | _ :: _, [] => false
  | a :: pr, b :: sr => a = b && chars_starts_with pr sr

/-- Character-list substring containment. -/
def chars_has_sub (pat : List Char) : List Char → Bool
  | [] => pat.isEmpty
  | c :: rest => chars_starts_with pat (c :: rest) || chars_has_sub pat rest

/-- SQL `s ILIKE '%pat%'`: case-insensitive substring test (the query text is
taken literally, wildcard characters inside it are out of scope). -/
def ilike (pat s : String) : Bool :=
  chars_has_sub (pat.toList.map Char.toLower) (s.toList.map Char.toLower)

/-- The `relevance_score` CASE expression of `search_products`:
name match 3, else description match 2, else tags match 1 (a NULL tags column
never matches), else 0. -/
def relevance_score (query : String) (p : Product) : Nat :=
  if ilike query p.name then 3
  else if ilike query p.description then 2
  else if (match p.tags with | some t => ilike query t | none => false) then 1
  else 0

/-- `ORDER BY relevance_score DESC, p.created_at DESC`: `a` may come before `b`
when `a` has strictly higher relevance, or equal relevance and a later (or
equal) creation instant. -/
def rank_rel (query : String) (a b : Product) : Prop :=
  relevance_score query b < relevance_score query a ∨
    (relevance_score query a = relevance_score query b ∧ b.created_at ≤ a.created_at)

instance (query : String) : DecidableRel (rank_rel query) := fun a b => by
  unfold rank_rel
  infer_instance

instance (query : String) : IsTotal Product (rank_rel query) where
  total a b := by
    unfold rank_rel
    rcases Nat.lt_trichotomy (relevance_score query a) (relevance_score query b) with h | h | h
    · exact Or.inr (Or.inl h)
    · rcases Int.le_total b.created_at a.created_at with h2 | h2
      · exact Or.inl (Or.inr ⟨h, h2⟩)
      · exact Or.inr (Or.inr ⟨h.symm, h2⟩)
    · exact Or.inl (Or.inl h)

instance (query : String) : IsTrans Product (rank_rel query) where
  trans a b c hab hbc := by
    unfold rank_rel at *
    rcases hab with h1 | ⟨h1, h1c⟩
    · rcases hbc with h2 | ⟨h2, _⟩
      · exact Or.inl (h2.trans h1)
      · exact Or.inl (h2 ▸ h1)
    · rcases hbc with h2 | ⟨h2, h2c⟩
      · exact Or.inl (h1 ▸ h2)
      · exact Or.inr ⟨h1.trans h2, h2c.trans h1c⟩

/-- The WHERE clause of `search_products` (plus the categories join): an
optional full-text OR-arm `ts` models postgres
`to_tsvector(..) @@ plainto_tsquery(query)`, which is external to the code. -/
def search_filter (ts : String → Product → Bool) (query : String)
    (category : Option String) (min_price max_price : Option Rat) (db : DB)
    (p : Product) : Bool :=
  decide (p.category ∈ db.categories) &&
  (if query = "" then true
   else ilike query p.name || ilike query p.description ||
     (match p.tags with | some t => ilike query t | none => false) || ts query p) &&
  (match category with | none => true | some c => decide (p.category = c)) &&
  (match min_price with | none => true | some m => decide (m ≤ p.price)) &&
  (match max_price with | none => true | some m => decide (p.price ≤ m))

/-- The main SELECT of `search_products`: filter, order by
(relevance DESC, created_at DESC), then `LIMIT %s OFFSET %s`. -/
def search_products_rows (ts : String → Product → Bool) (db : DB) (query : String)
    (category : Option String) (min_price max_price : Option Rat)
    (limit offset : Nat) : List Product :=
  ((List.insertionSort (rank_rel query)
      (db.products.filter (search_filter ts query category min_price max_price db))).drop
    offset).take limit

/-- The COUNT(*) SELECT of `search_products` (same filters, no pagination). -/
def search_products_count (ts : String → Product → Bool) (db : DB) (query : String)
    (category : Option String) (min_price max_price : Option Rat) : Nat :=
  (db.products.filter (search_filter ts query category min_price max_price db)).length

/-- The two hit/miss counters a `ProductSearchService` instance carries. -/
structure SearchCounters where
  hits : Nat
  misses : Nat
deriving DecidableEq, Repr

/-- `get_cache_hit_rate`: `hits / (hits + misses)`, `0.0` when there has been
no request. -/
def get_cache_hit_rate (c : SearchCounters) : Rat :=
  if c.hits + c.misses = 0 then 0
  else (c.hits : Rat) / ((c.hits : Rat) + (c.misses : Rat))

/-- The cached payload of one `search:` entry (fields the service reads back). -/
structure SearchPage where
  products : List Product
  total_count : Nat
deriving DecidableEq, Repr

/-- Outcome of one `search_products` call: the page plus the cache provenance
fields spliced into the returned dict. -/
structure SearchOutcome where
  page : SearchPage
  cache_hit : Bool
  cache_hit_rate : Rat
deriving DecidableEq, Repr

/-- The normalized-argument structure hashed into the `search:` cache key is
built in `generate_cache_key` below; `search_products` is parameterized by the
composite `digest` (json.dumps of the sorted structure followed by md5, both
external library functions). -/
structure SearchFilters where
  category : Option String
  min_price : Option Rat
  max_price : Option Rat
  limit : Int
  offset : Int
deriving DecidableEq, Repr

/-- A primitive JSON value appearing in the filters dict:
null, string, float or int. -/
abbrev FV := Option (String ⊕ Rat ⊕ Int)

/-- A value of the outer params dict: the query string or the filters dict. -/
abbrev PV := String ⊕ List (String × FV)

/-- The sorted key/value structure `json.dumps(.., sort_keys=True)` serializes. -/
abbrev NormJson := List (String × PV)

/-- Code-point lexicographic comparison of character lists — the order python
sorts string dict keys by. -/
def chars_le : List Char → List Char → Bool
  | [], _ => true
  | _ :: _, [] => false
  | a :: as, b :: bs =>
    if a.toNat < b.toNat then true
    else if b.toNat < a.toNat then false
    else chars_le as bs

/-- Code-point lexicographic order on strings. -/
def str_lex_le (a b : String) : Bool := chars_le a.data b.data

/-- Sorting an association list by key, as `sort_keys=True` does at one level. -/
def sort_keys_str : List (String × β) → List (String × β) :=
  List.insertionSort (fun a b => str_lex_le a.1 b.1 = true)

/-- The filters dict of `search_products` in its source insertion order. -/
def filters_entries (f : SearchFilters) : List (String × FV) :=
  [("category", f.category.map Sum.inl),
   ("min_price", f.min_price.map (fun q => Sum.inr (Sum.inl q))),
   ("max_price", f.max_price.map (fun q => Sum.inr (Sum.inl q))),
   ("limit", some (Sum.inr (Sum.inr f.limit))),
   ("offset", some (Sum.inr (Sum.inr f.offset)))]

/-- `json.dumps({"query": query, "filters": filters}, sort_keys=True)` up to the
final serialization: both dict levels sorted by key. -/
def normalize_search_params (query : String) (fentries : List (String × FV)) : NormJson :=
  sort_keys_str [("filters", Sum.inr (sort_keys_str fentries)), ("query", Sum.inl query)]

/-- `_generate_cache_key`: `"search:" + md5(json.dumps(params, sort_keys=True))`.
`digest` stands for the composite of the canonical JSON serialization and the
md5 hexdigest; per the design contract its collisions are negligible, which the
theorems make explicit as an injectivity hypothesis. -/
def generate_cache_key (digest : NormJson → String) (query : String)
    (f : SearchFilters) : String :=
  "search:" ++ digest (normalize_search_params query (filters_entries f))

/-- `search_products(query, category, min_price, max_price, limit, offset)`:
cache read (hit bumps `cache_hit_count`, miss bumps `cache_miss_count`, runs the
SQL and writes back) and the result dict carrying `cache_hit` and the running
`cache_hit_rate`. -/
def search_products (digest : NormJson → String) (ts : String → Product → Bool)
    (db : DB) (cache : List (String × SearchPage)) (ctr : SearchCounters)
    (query : String) (category : Option String) (min_price max_price : Option Rat)
    (limit offset : Nat) :
    SearchOutcome × SearchCounters × List (String × SearchPage) :=
  let key := generate_cache_key digest query
    { category := category, min_price := min_price, max_price := max_price,
      limit := (limit : Int), offset := (offset : Int) }
  match alookup key cache with
  | some page =>
    let ctr1 : SearchCounters := { hits := ctr.hits + 1, misses := ctr.misses }
    ({ page := page, cache_hit := true, cache_hit_rate := get_cache_hit_rate ctr1 },
     ctr1, cache)
  | none =>
    let ctr1 : SearchCounters := { hits := ctr.hits, misses := ctr.misses + 1 }
    let page : SearchPage :=
      { products := search_products_rows ts db query category min_price max_price limit offset,
        total_count := search_products_count ts db query category min_price max_price }
    ({ page := page, cache_hit := false, cache_hit_rate := get_cache_hit_rate ctr1 },
     ctr1, aupsert key page cache)

/-- `search_by_category(category_name, limit)`: key
`category_search:<name>:<limit>`; a hit bumps the hit counter, a miss bumps the
miss counter, runs the SQL (categories whose name contains the argument,
newest first) and writes back. -/
def search_by_category (db : DB) (cache : List (String × List Product))
    (ctr : SearchCounters) (category_name : String) (limit : Nat) :
    List Product × SearchCounters × List (String × List Product) :=
  let key := "category_search:" ++ category_name ++ ":" ++ toString limit
  match alookup key cache with
  | some rows => (rows, { hits := ctr.hits + 1, misses := ctr.misses }, cache)
  | none =>
    let rows :=
      (List.insertionSort (fun a b : Product => b.created_at ≤ a.created_at)
        (db.products.filter (fun p =>
          decide (p.category ∈ db.categories) && ilike category_name p.category))).take limit
    (rows, { hits := ctr.hits, misses := ctr.misses + 1 }, aupsert key rows cache)

/-- `get_product_suggestions(query, limit)`: key `suggestions:<query>:<limit>`;
neither the hit path nor the miss path touches either counter. -/
def get_product_suggestions (db : DB) (cache : List (String × List String))
    (ctr : SearchCounters) (query : String) (limit : Nat) :
    List String × SearchCounters × List (String × List String) :=
  let key := "suggestions:" ++ query ++ ":" ++ toString limit
  match alookup key cache with
  | some names => (names, ctr, cache)
  | none =>
    let names :=
      (List.insertionSort (fun a b : String => a ≤ b)
        ((db.products.map Product.name).filter (ilike query)).dedup).take limit
    (names, ctr, aupsert key names cache)

/-- A row of the semantic-search SELECT as far as fusion consumes it:
product id and `similarity_score`. -/
structure SemRow where
  id : String
  similarity_score : Rat
deriving DecidableEq, Repr

/-- A row of the text-rank SELECT as far as fusion consumes it:
product id and `text_rank`. -/
structure TextRow where
  id : String
  text_rank : Rat
deriving DecidableEq, Repr

/-- One entry of `combined_results` in `hybrid_search`. -/
structure HybridRow where
  id : String
  semantic_score : Rat
  text_score : Rat
  hybrid_score : Rat
deriving DecidableEq, Repr

/-- `semantic_search(query, limit)` as `hybrid_search` consumes it: answer the
cached value when present; otherwise, when the model or store raises
(`fail = true`), swallow the exception and return the empty list; otherwise the
first `limit` rows of the similarity SELECT (`rows`, an in-stock, nearest-first
list produced by pgvector, which is external). -/
def semantic_search (cache : Option (List SemRow)) (fail : Bool)
    (rows : List SemRow) (limit : Nat) : List SemRow :=
  match cache with
  | some r => r
  | none => if fail then [] else rows.take limit

/-- `combined_results[product_id] = {..}` over the semantic pass: dict write of
a fresh entry keyed by product id (fresh keys are appended, an existing key is
overwritten in place). -/
def upsert_row (l : List HybridRow) (r : HybridRow) : List HybridRow :=
  match l with
  | [] => [r]
  | x :: rest => if x.id = r.id then r :: rest else x :: upsert_row rest r

/-- The text-pass loop body of `hybrid_search`: an id already present gets its
`text_score` set and `text_rank * (1 - w)` added to its hybrid score; a new id
becomes a fresh entry with semantic score 0. -/
def add_text_row (w : Rat) (l : List HybridRow) (t : TextRow) : List HybridRow :=
  match l with
  | [] => [{ id := t.id, semantic_score := 0, text_score := t.text_rank,
             hybrid_score := t.text_rank * (1 - w) }]
  | x :: rest =>
    if x.id = t.id then
      { x with text_score := t.text_rank,
               hybrid_score := x.hybrid_score + t.text_rank * (1 - w) } :: rest
    else x :: add_text_row w rest t

/-- The fusion loops of `hybrid_search`: seed `combined_results` from the
semantic rows (hybrid score `similarity_score * w`, text score 0), then fold in
the text rows. -/
def combine_results (w : Rat) (sem : List SemRow) (text : List TextRow) :
    List HybridRow :=
  text.foldl (add_text_row w)
    (sem.foldl
      (fun acc r =>
        upsert_row acc
          { id := r.id, semantic_score := r.similarity_score, text_score := 0,
            hybrid_score := r.similarity_score * w })
      [])

/-- `sorted(combined_results.values(), key=lambda x: x["hybrid_score"],
reverse=True)`. -/
def hybrid_sort : List HybridRow → List HybridRow :=
  List.insertionSort (fun a b => b.hybrid_score ≤ a.hybrid_score)

instance : IsTotal HybridRow (fun a b => b.hybrid_score ≤ a.hybrid_score) where
  total a b := le_total b.hybrid_score a.hybrid_score

instance : IsTrans HybridRow (fun a b => b.hybrid_score ≤ a.hybrid_score) where
  trans _ _ _ hab hbc := le_trans hbc hab

/-- `hybrid_search(query, limit, semantic_weight)`. `cache` is its own
`hybrid_search:` entry and `semCache` the `semantic_search:` entry of the inner
call; `semFail` is a failure inside `semantic_search` (absorbed there),
`textFail` a failure of the text-rank SELECT (it raises inside the `try` of
`hybrid_search` itself); `semRows`/`textRows` are the two SELECT results, each
cut to `2 * limit` candidates. -/
def hybrid_search (cache : Option (List HybridRow)) (semCache : Option (List SemRow))
    (semFail textFail : Bool) (semRows : List SemRow) (textRows : List TextRow)
    (limit : Nat) (w : Rat) : List HybridRow :=
  match cache with
  | some r => r
  | none =>
    if textFail then []
    else
      let s := semantic_search semCache semFail semRows (limit * 2)
      let t := textRows.take (limit * 2)
      (hybrid_sort (combine_results w s t)).take limit

/-- `more_like_this(product_id, limit)`: empty when the target has no stored
embedding; otherwise the products with an embedding and a resolvable category,
excluding the target id and out-of-stock rows, nearest first. `emb` is the set
of product ids holding an embedding and `dist` the pgvector cosine distance of
a product to the target (external); the reported score is `1 - dist`. -/
def more_like_this (cache : Option (List (Product × Rat))) (db : DB)
    (emb : List String) (dist : String → Rat) (product_id : String) (limit : Nat) :
    List (Product × Rat) :=
  match cache with
  | some r => r
  | none =>
    if product_id ∈ emb then
      ((List.insertionSort (fun a b : Product × Rat => dist a.1.id ≤ dist b.1.id)
          ((db.products.filter (fun p =>
              decide (p.id ≠ product_id) && decide (0 < p.stock) &&
              decide (p.id ∈ emb) && decide (p.category ∈ db.categories))).map
            (fun p => (p, 1 - dist p.id)))).take limit)
    else []

/-- `RecommendationService.get_similar_products(product_id, limit)`: same shape
as `more_like_this` but its SELECT only filters `p.id != %s` — there is no
stock condition. -/
def get_similar_products (cache : Option (List (Product × Rat))) (db : DB)
    (emb : List String) (dist : String → Rat) (product_id : String) (limit : Nat) :
    List (Product × Rat) :=
  match cache with
  | some r => r
  | none =>
    if product_id ∈ emb then
      ((List.insertionSort (fun a b : Product × Rat => dist a.1.id ≤ dist b.1.id)
          ((db.products.filter (fun p =>
              decide (p.id ≠ product_id) &&
              decide (p.id ∈ emb) && decide (p.category ∈ db.categories))).map
            (fun p => (p, 1 - dist p.id)))).take limit)
    else []

instance : Encodable Char :=
  Encodable.ofLeftInjection Char.toNat (fun n => some (Char.ofNat n))
    (fun c => congrArg some (Char.ofNat_toNat c))

instance : Encodable String :=
  Encodable.ofLeftInjection String.data (fun l => some (String.mk l))
    (fun s => by cases s; rfl)

/-- A concrete injective digest (a unary writing of a total encoding of the
normalized structure), used to witness the collision-freeness hypothesis of the
cache-key theorem. -/
def unary_digest (v : NormJson) : String :=
  String.mk (List.replicate (Encodable.encode v) 'a')

/-- Concrete sample state for the C1 witness: one product with stock 1 and a
cart requesting 2 of it. -/
def st_c1 : SysState :=
  { db :=
      { products := [{ id := "p1", name := "X", category := "c", price := 5,
                       stock := 1, description := "", tags := none, created_at := 0 }],
        categories := ["c"], orders := [], order_items := [] },
    carts := [("u", { items := [("p1", { quantity := 2, price := 5, name := "X" })],
                      expiresAt := 0 })] }

/-- Concrete sample state for the C2 witness. -/
def st_c2 : SysState :=
  { db :=
      { products := [{ id := "p1", name := "X", category := "c", price := 5,
                       stock := 3, description := "", tags := none, created_at := 0 }],
        categories := ["c"], orders := [], order_items := [] },
    carts := [("u", { items := [("p1", { quantity := 2, price := 5, name := "X" })],
                      expiresAt := 0 })] }

/-- The cart items the service reads for a user (`{}` when the cart is Absent). -/
def cart_items_of (st : SysState) (user : String) : List (String × CartItem) :=
  match alookup user st.carts with
  | some c => c.items
  | none => []

/-- The quantity already in the cart for a product (0 when the line is absent). -/
def existing_qty (st : SysState) (user pid : String) : Int :=
  match alookup pid (cart_items_of st user) with
  | some it => it.quantity
  | none => 0

/-- Concrete sample state for C3: the cart line for `p1` holds the old price
snapshot 10 while the catalog price is meanwhile 12. -/
def st_c3 : SysState :=
  { db :=
      { products := [{ id := "p1", name := "Widget", category := "c", price := 12,
                       stock := 10, description := "", tags := none, created_at := 0 }],
        categories := ["c"], orders := [], order_items := [] },
    carts := [("u", { items := [("p1", { quantity := 1, price := 10, name := "Widget" })],
                      expiresAt := 0 })] }

/-- Sample product with positive stock for the C8 scenario. -/
def prod_c8b : Product :=
  { id := "b", name := "B", category := "c", price := 1, stock := 2,
    description := "", tags := none, created_at := 0 }

/-- Sample out-of-stock product for the C8 scenario. -/
def prod_c8z : Product :=
  { id := "z", name := "Z", category := "c", price := 1, stock := 0,
    description := "", tags := none, created_at := 0 }

/-- Sample catalog for the C8 scenario: the source product `a`, an in-stock
product `b` and an out-of-stock product `z`. -/
def db_c8 : DB :=
  { products := [{ id := "a", name := "A", category := "c", price := 1, stock := 5,
                   description := "", tags := none, created_at := 0 },
                 prod_c8b, prod_c8z],
    categories := ["c"], orders := [], order_items := [] }

/-- Sample cosine distances to the embedding of product `a`
(`z` is nearest). -/
def dist_c8 : String → Rat := fun s => if s = "z" then 0 else 1

/-- C9 sample: a product whose name matches the query "red". -/
def red_scarf : Product :=
  { id := "r1", name := "Red Scarf", category := "c", price := 1, stock := 1,
    description := "warm scarf", tags := none, created_at := 50 }

/-- C9 sample: a newer product whose only "red" match is in its tags. -/
def tag_hat : Product :=
  { id := "h1", name := "Blue Hat", category := "c", price := 1, stock := 1,
    description := "plain hat", tags := some "red, winter", created_at := 100 }

/-- C9 sample catalog (the tag-matching row is stored first and is newer). -/
def db_c9 : DB :=
  { products := [tag_hat, red_scarf], categories := ["c"],
    orders := [], order_items := [] }

/-- A postgres full-text arm that never matches (the external `@@` predicate is
irrelevant to the concrete C9 scenario). -/
def ts_false : String → Product → Bool := fun _ _ => false

/-- The semantic score a product id contributes to fusion: its
`similarity_score` among the semantic candidates, 0 when missing. -/
def sem_lookup (s : List SemRow) (id : String) : Rat :=
  match s.find? (fun r => r.id = id) with
  | some r => r.similarity_score
  | none => 0

/-- The text score a product id contributes to fusion: its `text_rank` among
the text candidates, 0 when missing. -/
def text_lookup (t : List TextRow) (id : String) : Rat :=
  match t.find? (fun r => r.id = id) with
  | some r => r.text_rank
  | none => 0

/-! ## Association-list lemmas -/

theorem alookup_aremove_self (k : String) (l : List (String × β)) :
    alookup k (aremove k l) = none := by
  induction l with
  | nil => rfl
  | cons hd tl ih =>
    by_cases h : hd.1 = k
    · simpa [aremove, List.filter, h] using ih
    · simpa [aremove, List.filter, h, alookup] using ih

theorem aremove_idem (k : String) (l : List (String × β)) :
    aremove k (aremove k l) = aremove k l := by
  induction l with
  | nil => rfl
  | cons hd tl ih =>
    by_cases h : hd.1 = k
    · simpa [aremove, List.filter, h] using ih
    · simpa [aremove, List.filter, h] using ih

theorem alookup_aupsert_self (k : String) (v : β) (l : List (String × β)) :
    alookup k (aupsert k v l) = some v := by
  induction l with
  | nil => simp [aupsert, alookup]
  | cons hd tl ih =>
    by_cases h : hd.1 = k
    · simp [aupsert, h, alookup]
    · simpa [aupsert, h, alookup] using ih

theorem alookup_aupsert_ne (k k₂ : String) (v : β) (l : List (String × β))
    (h : k₂ ≠ k) : alookup k₂ (aupsert k v l) = alookup k₂ l := by
  induction l with
  | nil => simp [aupsert, alookup, Ne.symm h]
  | cons hd tl ih =>
    by_cases h2 : hd.1 = k
    · have h3 : ¬ hd.1 = k₂ := by rw [h2]; exact Ne.symm h
      simp [aupsert, h2, alookup, Ne.symm h, h3]
    · by_cases h3 : hd.1 = k₂
      · simp [aupsert, h2, alookup, h3, h]
      · simp only [aupsert, h2, if_false, alookup, h3]
        exact ih

/-! ## Claim C10 — clear_cart -/

/-- Claim C10: for every user and every cart state (including an absent cart),
`clear_cart` returns success with an empty items map and a zero summary
(`total_items = 0`, `total_price = 0.0`), afterwards the cart is Absent, and
clearing is idempotent: clearing again succeeds with the identical result and
leaves the state identical. -/
theorem clear_cart_always_succeeds_and_idempotent (st : SysState) (user : String) :
    (clear_cart st user).1.success = true ∧
    (clear_cart st user).1.cart_items = [] ∧
    (clear_cart st user).1.summary = { total_items := 0, total_price := 0 } ∧
    alookup user (clear_cart st user).2.carts = none ∧
    clear_cart (clear_cart st user).2 user = ((clear_cart st user).1, (clear_cart st user).2) := by
  refine ⟨rfl, rfl, rfl, alookup_aremove_self user st.carts, ?_⟩
  unfold clear_cart
  simp [aremove_idem]

/-! ## Claim C1 — conversion is all-or-nothing -/

theorem validate_items_of_bad (db : DB) :
    ∀ items : List (String × CartItem),
      (∃ pr ∈ items, bad_line db pr.1 pr.2 = true) →
      validate_items db items ≠ none
  | [], h => by simp at h
  | (pid, it) :: rest, h => by
    unfold validate_items
    cases hinfo : get_product_info db pid with
    | none => simp
    | some p =>
      by_cases hq : p.stock < it.quantity
      · simp [hq]
      · simp only [hq, if_false]
        apply validate_items_of_bad db rest
        rcases h with ⟨pr, hmem, hbad⟩
        rcases List.mem_cons.mp hmem with heq | hmem2
        · exfalso
          rw [heq] at hbad
          unfold bad_line at hbad
          rw [hinfo] at hbad
          simp at hbad
          exact hq hbad
        · exact ⟨pr, hmem2, hbad⟩

/-! ## Claim C2 — stock never becomes negative -/

theorem find?_map_pres (f : Product → Product) (pred : Product → Bool)
    (hpred : ∀ p, pred (f p) = pred p) (hfix : ∀ p, pred p = true → f p = p) :
    ∀ l : List Product, (l.map f).find? pred = l.find? pred := by
  intro l
  induction l with
  | nil => rfl
  | cons a rest ih =>
    rw [List.map_cons]
    cases hp : pred a with
    | true =>
      rw [List.find?_cons_of_pos _ (by rw [hpred]; exact hp),
          List.find?_cons_of_pos _ hp, hfix a hp]
    | false =>
      rw [List.find?_cons_of_neg _ (by simp [hpred, hp]),
          List.find?_cons_of_neg _ (by simp [hp])]
      exact ih

theorem get_product_info_dec_stock_ne (db : DB) (pid : String) (q : Int)
    (x : String) (hx : x ≠ pid) :
    get_product_info (dec_stock db pid q) x = get_product_info db x := by
  unfold get_product_info dec_stock
  apply find?_map_pres
  · intro p
    by_cases h : p.id = pid <;> simp [h]
  · intro p hp
    simp only [decide_eq_true_eq] at hp
    have : ¬ p.id = pid := by rw [hp.1]; exact hx
    simp [this]

theorem validate_items_congr (db1 db2 : DB) :
    ∀ items : List (String × CartItem),
      (∀ pr ∈ items, get_product_info db1 pr.1 = get_product_info db2 pr.1) →
      validate_items db1 items = validate_items db2 items
  | [], _ => rfl
  | (pid, it) :: rest, h => by
    unfold validate_items
    rw [h (pid, it) (List.mem_cons_self _ _)]
    cases get_product_info db2 pid with
    | none => rfl
    | some p =>
      by_cases hq : p.stock < it.quantity
      · simp [hq]
      · simp only [hq, if_false]
        exact validate_items_congr db1 db2 rest (fun pr hpr => h pr (List.mem_cons_of_mem _ hpr))

theorem dec_stock_products_map (db : DB) (pid : String) (q : Int) :
    (dec_stock db pid q).products =
      db.products.map (fun p => if p.id = pid then { p with stock := p.stock - q } else p) := rfl

theorem dec_stock_id_map (db : DB) (pid : String) (q : Int) :
    (dec_stock db pid q).products.map Product.id = db.products.map Product.id := by
  rw [dec_stock_products_map, List.map_map]
  apply List.map_congr_left
  intro p _
  by_cases h : p.id = pid <;> simp [h]

theorem apply_order_items_nonneg (oid : String) :
    ∀ (items : List (String × CartItem)) (db : DB),
      (items.map Prod.fst).Nodup →
      products_nodup db →
      validate_items db items = none →
      stocks_nonneg db →
      stocks_nonneg (apply_order_items oid db items)
  | [], db, _, _, _, hnn => hnn
  | (pid, it) :: rest, db, hkeys, hnodup, hval, hnn => by
    cases hinfo : get_product_info db pid with
    | none => simp [validate_items, hinfo] at hval
    | some p =>
      simp only [validate_items, hinfo] at hval
      by_cases hq : p.stock < it.quantity
      · rw [if_pos hq] at hval; exact absurd hval (by simp)
      · rw [if_neg hq] at hval
        have hp_pred := List.find?_some hinfo
        have hp_mem := List.mem_of_find?_eq_some hinfo
        simp only [decide_eq_true_eq] at hp_pred
        have hkeys_rest : (rest.map Prod.fst).Nodup := (List.nodup_cons.mp hkeys).2
        have hpid_not : pid ∉ rest.map Prod.fst := (List.nodup_cons.mp hkeys).1
        set dbmid := { db with order_items :=
          db.order_items ++
            [({ id := "order_item_" ++ oid ++ "_" ++ pid, order_id := oid,
                product_id := pid, quantity := it.quantity } : OrderItem)] } with hdbmid
        have hmid_products : dbmid.products = db.products := rfl
        have hmid_info : ∀ x, get_product_info dbmid x = get_product_info db x :=
          fun x => rfl
        set db2 := dec_stock dbmid pid it.quantity with hdb2
        have hdb2_nodup : products_nodup db2 := by
          unfold products_nodup
          rw [hdb2, dec_stock_id_map]
          exact hnodup
        have hdb2_info_ne : ∀ x, x ≠ pid → get_product_info db2 x = get_product_info db x :=
          fun x hx => by
            rw [hdb2, get_product_info_dec_stock_ne dbmid pid it.quantity x hx]
            exact hmid_info x
        have hdb2_val : validate_items db2 rest = none := by
          rw [validate_items_congr db2 db rest ?_]
          · exact hval
          · intro pr hpr
            apply hdb2_info_ne
            intro hx
            exact hpid_not (hx ▸ List.mem_map_of_mem Prod.fst hpr)
        have hdb2_nn : stocks_nonneg db2 := by
          intro r hr
          rw [hdb2, dec_stock_products_map] at hr
          rcases List.mem_map.mp hr with ⟨p2, hp2_mem, hp2_eq⟩
          rw [hmid_products] at hp2_mem
          by_cases hcase : p2.id = pid
          · have hp2p : p2 = p :=
              List.inj_on_of_nodup_map hnodup hp2_mem hp_mem (by rw [hcase, hp_pred.1])
            rw [← hp2_eq, if_pos hcase]
            show 0 ≤ p2.stock - it.quantity
            rw [hp2p]
            have h1 := hnn p hp_mem
            omega
          · rw [← hp2_eq, if_neg hcase]
            exact hnn p2 hp2_mem
        show stocks_nonneg (apply_order_items oid db2 rest)
        exact apply_order_items_nonneg oid rest db2 hkeys_rest hdb2_nodup hdb2_val hdb2_nn

theorem alookup_some_mem (k : String) (v : β) :
    ∀ l : List (String × β), alookup k l = some v → (k, v) ∈ l
  | [], h => by simp [alookup] at h
  | (k₂, w) :: rest, h => by
    unfold alookup at h
    by_cases h2 : k₂ = k
    · rw [if_pos h2] at h
      rw [← h2]
      injection h with h3
      rw [h3]
      exact List.mem_cons_self _ _
    · rw [if_neg h2] at h
      exact List.mem_cons_of_mem _ (alookup_some_mem k v rest h)

theorem add_item_db_eq (st : SysState) (now : Int) (u pid : String) (q : Int) :
    (add_item st now u pid q).2.db = st.db := by
  unfold add_item
  repeat' first
    | rfl
    | split
    | dsimp only

theorem remove_item_db_eq (st : SysState) (now : Int) (u pid : String) :
    (remove_item st now u pid).2.db = st.db := by
  unfold remove_item
  repeat' first
    | rfl
    | split
    | dsimp only

theorem update_item_quantity_db_eq (st : SysState) (now : Int) (u pid : String) (q : Int) :
    (update_item_quantity st now u pid q).2.db = st.db := by
  unfold update_item_quantity
  repeat' first
    | exact remove_item_db_eq st now u pid
    | rfl
    | split
    | dsimp only

theorem convert_nonneg (st : SysState) (ts u : String) (addr : List (String × String))
    (hnodup : products_nodup st.db) (hwf : carts_wf st) (hnn : stocks_nonneg st.db) :
    stocks_nonneg (convert_cart_to_order st ts u addr).2.db := by
  unfold convert_cart_to_order
  cases hc : alookup u st.carts with
  | none => exact hnn
  | some c =>
    by_cases hempty : c.items = []
    · simp only [hempty]
      simp [hnn]
    · simp only [hempty, if_neg, ite_false]
      cases hval : validate_items st.db c.items with
      | some m => exact hnn
      | none =>
        simp only []
        have hkeys : (c.items.map Prod.fst).Nodup := hwf (u, c) (alookup_some_mem u c st.carts hc)
        set db1 := { st.db with orders :=
          st.db.orders ++ [({ id := "order_" ++ u ++ "_" ++ ts, user_id := u } : Order)] } with hdb1
        have hval1 : validate_items db1 c.items = none := by
          rw [validate_items_congr db1 st.db c.items (fun pr _ => rfl)]
          exact hval
        have hnodup1 : products_nodup db1 := hnodup
        have hnn1 : stocks_nonneg db1 := hnn
        exact apply_order_items_nonneg ("order_" ++ u ++ "_" ++ ts) c.items db1 hkeys hnodup1 hval1 hnn1

/-- Claim C2: for every product, stock never becomes negative: every core
operation (cart add/update/remove/clear and cart-to-order conversion) preserves
`stocks_nonneg`; the conversion decrements each line only after validating the
quantity against live stock, and no other core operation writes the products
table at all. -/
theorem stock_never_negative (st : SysState) (now : Int) (ts u pid : String) (q : Int)
    (addr : List (String × String))
    (hnodup : products_nodup st.db) (hwf : carts_wf st) (hnn : stocks_nonneg st.db) :
    stocks_nonneg (add_item st now u pid q).2.db ∧
    stocks_nonneg (update_item_quantity st now u pid q).2.db ∧
    stocks_nonneg (remove_item st now u pid).2.db ∧
    stocks_nonneg (clear_cart st u).2.db ∧
    stocks_nonneg (convert_cart_to_order st ts u addr).2.db ∧
    (add_item st now u pid q).2.db.products = st.db.products ∧
    (update_item_quantity st now u pid q).2.db.products = st.db.products ∧
    (remove_item st now u pid).2.db.products = st.db.products ∧
    (clear_cart st u).2.db.products = st.db.products := by
  refine ⟨?_, ?_, ?_, hnn, convert_nonneg st ts u addr hnodup hwf hnn, ?_, ?_, ?_, rfl⟩
  · rw [add_item_db_eq]; exact hnn
  · rw [update_item_quantity_db_eq]; exact hnn
  · rw [remove_item_db_eq]; exact hnn
  · rw [add_item_db_eq]
  · rw [update_item_quantity_db_eq]
  · rw [remove_item_db_eq]

/-- Witness for C2 at a concrete state: converting a cart holding 2 of a
product with stock 3 leaves every stock non-negative. -/
theorem stock_never_negative_witness :
    stocks_nonneg (convert_cart_to_order st_c2 "20240101" "u" []).2.db ∧
    stocks_nonneg (add_item st_c2 0 "u" "p1" 1).2.db :=
  ⟨(stock_never_negative st_c2 0 "20240101" "u" "p1" 1 []
      (by decide) (by decide) (by decide)).2.2.2.2.1,
   (stock_never_negative st_c2 0 "20240101" "u" "p1" 1 []
      (by decide) (by decide) (by decide)).1⟩

/-- Claim C1: `convert_cart_to_order` is all-or-nothing. It fails when the cart
is absent or has no items; and whenever some line of the cart fails the
pre-conversion re-validation (its product no longer resolves, or its requested
quantity exceeds the live stock), the conversion reports failure and the whole
state is unchanged — in particular no Order row, no OrderItem row and no stock
change is made for any line. -/
theorem convert_cart_to_order_all_or_nothing
    (st : SysState) (ts user : String) (addr : List (String × String))
    (h : alookup user st.carts = none
       ∨ ∃ c, alookup user st.carts = some c ∧
           (c.items = [] ∨ ∃ pr ∈ c.items, bad_line st.db pr.1 pr.2 = true)) :
    (convert_cart_to_order st ts user addr).1.success = false ∧
    (convert_cart_to_order st ts user addr).2 = st ∧
    (convert_cart_to_order st ts user addr).2.db.orders = st.db.orders ∧
    (convert_cart_to_order st ts user addr).2.db.order_items = st.db.order_items ∧
    (convert_cart_to_order st ts user addr).2.db.products = st.db.products := by
  have key : (convert_cart_to_order st ts user addr).1.success = false ∧
      (convert_cart_to_order st ts user addr).2 = st := by
    unfold convert_cart_to_order
    rcases h with hnone | ⟨c, hsome, hrest⟩
    · simp [hnone]
    · rcases hrest with hempty | hbad
      · simp [hsome, hempty]
      · have hne : c.items ≠ [] := by
          rcases hbad with ⟨pr, hmem, _⟩
          intro hnil
          rw [hnil] at hmem
          simp at hmem
        cases hval : validate_items st.db c.items with
        | none => exact absurd hval (validate_items_of_bad st.db c.items hbad)
        | some m => simp [hsome, hne, hval]
  exact ⟨key.1, key.2, by rw [key.2], by rw [key.2], by rw [key.2]⟩

/-- Witness for C1 at a concrete state: a cart line requesting 2 units of a
product whose live stock is 1 makes the conversion fail with the state intact. -/
theorem convert_cart_to_order_all_or_nothing_witness :
    (convert_cart_to_order st_c1 "20240101" "u" []).1.success = false ∧
    (convert_cart_to_order st_c1 "20240101" "u" []).2 = st_c1 := by
  have h := convert_cart_to_order_all_or_nothing st_c1 "20240101" "u" []
    (Or.inr ⟨{ items := [("p1", { quantity := 2, price := 5, name := "X" })], expiresAt := 0 },
      by decide,
      Or.inr ⟨("p1", { quantity := 2, price := 5, name := "X" }), by decide, by decide⟩⟩)
  exact ⟨h.1, h.2.1⟩

/-! ## Claim C3 — add_item -/

theorem alookup_append_of_none (k : String) :
    ∀ l1 l2 : List (String × β),
      alookup k l1 = none → alookup k (l1 ++ l2) = alookup k l2
  | [], _, _ => rfl
  | (k₂, v) :: tl, l2, h => by
    by_cases h2 : k₂ = k
    · exfalso
      unfold alookup at h
      rw [if_pos h2] at h
      exact Option.noConfusion h
    · unfold alookup at h
      rw [if_neg h2] at h
      show (if k₂ = k then some v else alookup k (tl ++ l2)) = alookup k l2
      rw [if_neg h2]
      exact alookup_append_of_none k tl l2 h

/-- Counterexample to claim C3 as stated: adding one more unit of a product
already in the cart succeeds, yet the stored line keeps the stale price
snapshot 10 even though the catalog price read at this call is 12 — the
price/name snapshot is not refreshed on an existing line. -/
theorem add_item_stale_snapshot_cex :
    (add_item st_c3 0 "u" "p1" 1).1.success = true ∧
    (get_product_info st_c3.db "p1").map Product.price = some 12 ∧
    (alookup "p1" (cart_items_of (add_item st_c3 0 "u" "p1" 1).2 "u")).map CartItem.price
      = some 10 ∧
    ¬ ((alookup "p1" (cart_items_of (add_item st_c3 0 "u" "p1" 1).2 "u")).map CartItem.price
        = (get_product_info st_c3.db "p1").map Product.price) := by
  refine ⟨by decide, by decide, by decide, by decide⟩

/-- Amended claim C3: `add_item` fails exactly when the quantity is
non-positive, the product is unknown, or existing cart quantity plus requested
quantity exceeds the live stock (assuming the stored line quantity is
non-negative, an invariant of every reachable cart). On success the line is
upserted and the cart TTL is reset to the full 24 hours; a fresh line receives
the live price/name snapshot, while an existing line only has its quantity
increased and keeps its original snapshot. -/
theorem add_item_spec (st : SysState) (now : Int) (u pid : String) (q : Int)
    (hq0 : 0 ≤ existing_qty st u pid) :
    ((add_item st now u pid q).1.success = false ↔
      q ≤ 0 ∨ get_product_info st.db pid = none ∨
        ∃ p, get_product_info st.db pid = some p ∧
          p.stock < existing_qty st u pid + q) ∧
    (∀ p it, get_product_info st.db pid = some p →
      alookup pid (cart_items_of st u) = some it →
      (add_item st now u pid q).1.success = true →
      ∃ sc, alookup u (add_item st now u pid q).2.carts = some sc ∧
        sc.expiresAt = now + cart_ttl ∧
        alookup pid sc.items =
          some { quantity := it.quantity + q, price := it.price, name := it.name }) ∧
    (∀ p, get_product_info st.db pid = some p →
      alookup pid (cart_items_of st u) = none →
      (add_item st now u pid q).1.success = true →
      ∃ sc, alookup u (add_item st now u pid q).2.carts = some sc ∧
        sc.expiresAt = now + cart_ttl ∧
        alookup pid sc.items = some { quantity := q, price := p.price, name := p.name }) := by
  unfold add_item
  by_cases h1 : q ≤ 0
  · rw [if_pos h1]
    refine ⟨⟨fun _ => Or.inl h1, fun _ => rfl⟩, ?_, ?_⟩
    · intro p it _ _ hsucc
      exact absurd hsucc (by simp)
    · intro p _ _ hsucc
      exact absurd hsucc (by simp)
  · rw [if_neg h1]
    cases h2 : get_product_info st.db pid with
    | none =>
      refine ⟨⟨fun _ => Or.inr (Or.inl rfl), fun _ => rfl⟩, ?_, ?_⟩
      · intro p it hp
        exact absurd hp (by simp)
      · intro p hp
        exact absurd hp (by simp)
    | some p =>
      have hitems0 : (match alookup u st.carts with
          | some c => c.items
          | none => []) = cart_items_of st u := rfl
      dsimp only
      by_cases h3 : p.stock < q
      · rw [if_pos h3]
        refine ⟨⟨?_, fun _ => rfl⟩, ?_, ?_⟩
        · intro _
          refine Or.inr (Or.inr ⟨p, rfl, ?_⟩)
          omega
        · intro p2 it _ _ hsucc
          exact absurd hsucc (by simp)
        · intro p2 _ _ hsucc
          exact absurd hsucc (by simp)
      · rw [if_neg h3]
        rw [hitems0]
        cases h4 : alookup pid (cart_items_of st u) with
        | some it =>
          have hexist : existing_qty st u pid = it.quantity := by
            unfold existing_qty
            rw [h4]
          dsimp only
          by_cases h5 : p.stock < it.quantity + q
          · rw [if_pos h5]
            refine ⟨⟨?_, fun _ => rfl⟩, ?_, ?_⟩
            · intro _
              refine Or.inr (Or.inr ⟨p, rfl, ?_⟩)
              rw [hexist]
              exact h5
            · intro p2 it2 _ _ hsucc
              exact absurd hsucc (by simp)
            · intro p2 _ _ hsucc
              exact absurd hsucc (by simp)
          · rw [if_neg h5]
            refine ⟨⟨fun hfalse => absurd hfalse (by simp), ?_⟩, ?_, ?_⟩
            · rintro (hq | hnone | ⟨p2, hp2, hlt⟩)
              · exact absurd hq h1
              · exact absurd hnone (by simp)
              · injection hp2 with hp2
                rw [← hp2, hexist] at hlt
                exact absurd hlt h5
            · intro p2 it2 hp2 hit2 _
              injection hit2 with hit2
              refine ⟨⟨aupsert pid { it with quantity := it.quantity + q }
                  (cart_items_of st u), now + cart_ttl⟩,
                alookup_aupsert_self u _ st.carts, rfl, ?_⟩
              rw [alookup_aupsert_self pid _ (cart_items_of st u), ← hit2]
            · intro p2 hp2 hnone
              exact absurd hnone (by simp)
        | none =>
          have hexist : existing_qty st u pid = 0 := by
            unfold existing_qty
            rw [h4]
          dsimp only
          refine ⟨⟨fun hfalse => absurd hfalse (by simp), ?_⟩, ?_, ?_⟩
          · rintro (hq | hnone | ⟨p2, hp2, hlt⟩)
            · exact absurd hq h1
            · exact absurd hnone (by simp)
            · injection hp2 with hp2
              rw [← hp2, hexist] at hlt
              simp only [zero_add] at hlt
              exact absurd hlt h3
          · intro p2 it2 hp2 hit2 _
            exact absurd hit2 (by simp)
          · intro p2 hp2 _ _
            injection hp2 with hp2
            refine ⟨⟨cart_items_of st u ++
                [(pid, { quantity := q, price := p.price, name := p.name })],
                now + cart_ttl⟩,
              alookup_aupsert_self u _ st.carts, rfl, ?_⟩
            rw [alookup_append_of_none pid _ _ h4]
            unfold alookup
            rw [if_pos rfl, ← hp2]

/-- Witness for C3 (amended): at the concrete state, requesting 100 units
fails by the stock bound, and adding 1 unit succeeds keeping the stored
snapshot. -/
theorem add_item_spec_witness :
    (add_item st_c3 0 "u" "p1" 100).1.success = false ∧
    (add_item st_c3 0 "u" "p1" 1).1.success = true := by
  constructor
  · exact (add_item_spec st_c3 0 "u" "p1" 100 (by decide)).1.mpr
      (Or.inr (Or.inr ⟨⟨"p1", "Widget", "c", 12, 10, "", none, 0⟩, by decide, by decide⟩))
  · decide

/-! ## Claim C4 — hit/miss counters and the hit rate -/

/-- Counterexample to claim C4 as stated: a cached read served from the
`suggestions:` family leaves both counters untouched, so not every cached read
increments exactly one of the hit/miss counters. -/
theorem get_product_suggestions_counters_cex :
    alookup ("suggestions:" ++ "te" ++ ":" ++ toString 5)
        [("suggestions:te:5", ["test"])] = some ["test"] ∧
    (get_product_suggestions ⟨[], [], [], []⟩ [("suggestions:te:5", ["test"])]
        ⟨0, 0⟩ "te" 5).2.1 = ⟨0, 0⟩ ∧
    ¬ ((get_product_suggestions ⟨[], [], [], []⟩ [("suggestions:te:5", ["test"])]
          ⟨0, 0⟩ "te" 5).2.1.hits +
        (get_product_suggestions ⟨[], [], [], []⟩ [("suggestions:te:5", ["test"])]
          ⟨0, 0⟩ "te" 5).2.1.misses = 0 + 0 + 1) := by
  refine ⟨by decide, by decide, by decide⟩

/-- Amended claim C4: the reported running hit-rate always equals
`hits / (hits + misses)` (0 when no requests, by the 0-denominator convention),
and a `search_products` or `search_by_category` read increments exactly one of
the two counters — a hit bumps `hits`, a miss bumps `misses` — with the
reported rate computed over all counted reads including the current one; but a
`get_product_suggestions` read increments neither counter. -/
theorem cache_hit_rate_and_counters :
    (∀ c : SearchCounters, get_cache_hit_rate c =
        (c.hits : Rat) / ((c.hits : Rat) + (c.misses : Rat))) ∧
    get_cache_hit_rate ⟨0, 0⟩ = 0 ∧
    (∀ (digest : NormJson → String) (ts : String → Product → Bool) (db : DB)
        (cache : List (String × SearchPage)) (ctr : SearchCounters)
        (query : String) (category : Option String) (minp maxp : Option Rat)
        (limit offset : Nat),
      ((search_products digest ts db cache ctr query category minp maxp limit offset).2.1.hits +
        (search_products digest ts db cache ctr query category minp maxp limit offset).2.1.misses
          = ctr.hits + ctr.misses + 1) ∧
      ((search_products digest ts db cache ctr query category minp maxp limit offset).1.cache_hit = true →
        (search_products digest ts db cache ctr query category minp maxp limit offset).2.1
          = ⟨ctr.hits + 1, ctr.misses⟩) ∧
      ((search_products digest ts db cache ctr query category minp maxp limit offset).1.cache_hit = false →
        (search_products digest ts db cache ctr query category minp maxp limit offset).2.1
          = ⟨ctr.hits, ctr.misses + 1⟩) ∧
      (search_products digest ts db cache ctr query category minp maxp limit offset).1.cache_hit_rate
        = get_cache_hit_rate
            (search_products digest ts db cache ctr query category minp maxp limit offset).2.1) ∧
    (∀ (db : DB) (cache : List (String × List Product)) (ctr : SearchCounters)
        (cat : String) (limit : Nat),
      (search_by_category db cache ctr cat limit).2.1.hits +
        (search_by_category db cache ctr cat limit).2.1.misses = ctr.hits + ctr.misses + 1) ∧
    (∀ (db : DB) (cache : List (String × List String)) (ctr : SearchCounters)
        (query : String) (limit : Nat),
      (get_product_suggestions db cache ctr query limit).2.1 = ctr) := by
  refine ⟨?_, rfl, ?_, ?_, ?_⟩
  · intro c
    unfold get_cache_hit_rate
    by_cases h : c.hits + c.misses = 0
    · rcases Nat.add_eq_zero.mp h with ⟨h1, h2⟩
      simp [h, h1, h2]
    · rw [if_neg h]
  · intro digest ts db cache ctr query category minp maxp limit offset
    unfold search_products
    dsimp only
    cases h : alookup (generate_cache_key digest query
        { category := category, min_price := minp, max_price := maxp,
          limit := (limit : Int), offset := (offset : Int) }) cache with
    | some page =>
      dsimp only
      refine ⟨by omega, fun _ => rfl, ?_, rfl⟩
      intro hfalse
      exact absurd hfalse (by simp)
    | none =>
      dsimp only
      refine ⟨by omega, ?_, fun _ => rfl, rfl⟩
      intro htrue
      exact absurd htrue (by simp)
  · intro db cache ctr cat limit
    unfold search_by_category
    dsimp only
    cases h : alookup ("category_search:" ++ cat ++ ":" ++ toString limit) cache with
    | some rows =>
      dsimp only
      omega
    | none =>
      dsimp only
      omega
  · intro db cache ctr query limit
    unfold get_product_suggestions
    dsimp only
    cases h : alookup ("suggestions:" ++ query ++ ":" ++ toString limit) cache with
    | some names => rfl
    | none => rfl

/-- Witness for C4 (amended) at concrete inputs: rate 7/10 after 7 hits and 3
misses, and a concrete suggestions read leaving the counters at zero. -/
theorem cache_hit_rate_and_counters_witness :
    get_cache_hit_rate ⟨7, 3⟩ = 7 / 10 ∧
    (get_product_suggestions ⟨[], [], [], []⟩ [] ⟨0, 0⟩ "q" 5).2.1 = ⟨0, 0⟩ := by
  constructor
  · rw [cache_hit_rate_and_counters.1 ⟨7, 3⟩]
    norm_num
  · exact cache_hit_rate_and_counters.2.2.2.2 ⟨[], [], [], []⟩ [] ⟨0, 0⟩ "q" 5

/-! ## Claim C6 — failure behaviour of hybrid search -/

/-- Counterexample to claim C6 as stated: with the semantic pass failing
(absorbed inside `semantic_search` as an empty list) and the text pass
succeeding, `hybrid_search` returns a non-empty result built from the text
side alone instead of the empty list. -/
theorem hybrid_search_partial_result_cex :
    (hybrid_search none none true false [⟨"b", 1⟩] [⟨"a", 1⟩] 1 (7 / 10)).map
        HybridRow.id = ["a"] ∧
    (hybrid_search none none true false [⟨"b", 1⟩] [⟨"a", 1⟩] 1 (7 / 10)).map
        HybridRow.semantic_score = [0] ∧
    (hybrid_search none none true false [⟨"b", 1⟩] [⟨"a", 1⟩] 1 (7 / 10)).map
        HybridRow.text_score = [1] ∧
    hybrid_search none none true false [⟨"b", 1⟩] [⟨"a", 1⟩] 1 (7 / 10) ≠ [] := by
  refine ⟨by decide, by decide, by decide, ?_⟩
  intro h
  have := congrArg (List.map HybridRow.id) h
  revert this
  decide

/-- Amended claim C6: only a failure of the text-rank pass (which raises inside
the `try` of `hybrid_search` itself) absorbs the whole call to an empty result;
a failure inside the semantic pass is swallowed by `semantic_search` as an
empty semantic candidate list, and the hybrid result is then built from the
surviving text side alone. -/
theorem hybrid_search_fail_soft_spec :
    (∀ (semCache : Option (List SemRow)) (semFail : Bool) (semRows : List SemRow)
        (textRows : List TextRow) (limit : Nat) (w : Rat),
      hybrid_search none semCache semFail true semRows textRows limit w = []) ∧
    (∀ (semRows : List SemRow) (textRows : List TextRow) (limit : Nat) (w : Rat),
      hybrid_search none none true false semRows textRows limit w =
        hybrid_search none none false false [] textRows limit w) := by
  constructor
  · intro semCache semFail semRows textRows limit w
    rfl
  · intro semRows textRows limit w
    simp [hybrid_search, semantic_search, List.take_nil]

/-! ## Claim C8 — exclusions of more-like-this / similar products -/

/-- Counterexample to claim C8 as stated: `get_similar_products` keeps the
out-of-stock product `z` (stock 0) in its result set — its SELECT has no
stock filter. -/
theorem get_similar_products_stock_cex :
    (get_similar_products none db_c8 ["a", "b", "z"] dist_c8 "a" 5).map
        (fun r => r.1.id) = ["z", "b"] ∧
    prod_c8z.stock = 0 := by
  refine ⟨by decide, by decide⟩

/-- Amended claim C8: `more_like_this` (SemanticSearchService) excludes the
source product id and every out-of-stock product from its results for every
limit; `get_similar_products` (RecommendationService) excludes only the source
product id — out-of-stock products can appear in its results. -/
theorem similar_products_exclusions :
    (∀ (db : DB) (emb : List String) (dist : String → Rat) (pid : String)
        (limit : Nat) (r : Product × Rat),
      r ∈ more_like_this none db emb dist pid limit →
      r.1.id ≠ pid ∧ 0 < r.1.stock) ∧
    (∀ (db : DB) (emb : List String) (dist : String → Rat) (pid : String)
        (limit : Nat) (r : Product × Rat),
      r ∈ get_similar_products none db emb dist pid limit →
      r.1.id ≠ pid) := by
  constructor
  · intro db emb dist pid limit r hr
    unfold more_like_this at hr
    by_cases hemb : pid ∈ emb
    · rw [if_pos hemb] at hr
      have h1 := List.mem_of_mem_take hr
      have h2 := (List.perm_insertionSort
        (fun a b : Product × Rat => dist a.1.id ≤ dist b.1.id) _).mem_iff.mp h1
      rcases List.mem_map.mp h2 with ⟨p, hpmem, hpr⟩
      rcases List.mem_filter.mp hpmem with ⟨_, hcond⟩
      simp only [Bool.and_eq_true, decide_eq_true_eq] at hcond
      rw [← hpr]
      exact ⟨hcond.1.1.1, hcond.1.1.2⟩
    · rw [if_neg hemb] at hr
      simp at hr
  · intro db emb dist pid limit r hr
    unfold get_similar_products at hr
    by_cases hemb : pid ∈ emb
    · rw [if_pos hemb] at hr
      have h1 := List.mem_of_mem_take hr
      have h2 := (List.perm_insertionSort
        (fun a b : Product × Rat => dist a.1.id ≤ dist b.1.id) _).mem_iff.mp h1
      rcases List.mem_map.mp h2 with ⟨p, hpmem, hpr⟩
      rcases List.mem_filter.mp hpmem with ⟨_, hcond⟩
      simp only [Bool.and_eq_true, decide_eq_true_eq] at hcond
      rw [← hpr]
      exact hcond.1.1
    · rw [if_neg hemb] at hr
      simp at hr

/-- Witness for C8 (amended) at the concrete scenario: the one product in the
`more_like_this` answer for `a` is not `a` and has positive stock. -/
theorem similar_products_exclusions_witness :
    (prod_c8b, 1 - dist_c8 "b").1.id ≠ "a" ∧ 0 < (prod_c8b, 1 - dist_c8 "b").1.stock :=
  similar_products_exclusions.1 db_c8 ["a", "b", "z"] dist_c8 "a" 5
    (prod_c8b, 1 - dist_c8 "b")
    (by
      have heq : more_like_this none db_c8 ["a", "b", "z"] dist_c8 "a" 5 =
          [(prod_c8b, 1 - dist_c8 "b")] := rfl
      rw [heq]
      exact List.mem_cons_self _ _)

/-! ## Claim C9 — graded lexical ranking -/

/-- Claim C9: lexical search orders its result page by the graded relevance
score as primary key — a name match scores 3, a description-only match 2, a
tags-only match 1, no direct substring match 0, so each grade ranks strictly
above the next — and `rank_rel` breaks relevance ties by recency (newest
`created_at` first); concretely, for the query "red" the product named
"Red Scarf" ranks above the newer product whose only match is in its tags. -/
theorem lexical_ranking_spec (ts : String → Product → Bool) (db : DB)
    (query : String) (category : Option String) (minp maxp : Option Rat)
    (limit offset : Nat) :
    List.Sorted (rank_rel query)
      (search_products_rows ts db query category minp maxp limit offset) ∧
    (∀ p : Product, ilike query p.name = true → relevance_score query p = 3) ∧
    (∀ p : Product, ilike query p.name = false → ilike query p.description = true →
      relevance_score query p = 2) ∧
    (∀ p : Product, ilike query p.name = false → ilike query p.description = false →
      (match p.tags with | some t => ilike query t | none => false) = true →
      relevance_score query p = 1) ∧
    (∀ p : Product, ilike query p.name = false → ilike query p.description = false →
      (match p.tags with | some t => ilike query t | none => false) = false →
      relevance_score query p = 0) ∧
    (∀ a b : Product, rank_rel query a b →
      relevance_score query b ≤ relevance_score query a ∧
      (relevance_score query a = relevance_score query b → b.created_at ≤ a.created_at)) ∧
    search_products_rows ts_false db_c9 "red" none none none 10 0 = [red_scarf, tag_hat] := by
  refine ⟨?_, ?_, ?_, ?_, ?_, ?_, by decide⟩
  · have hsorted := List.sorted_insertionSort (rank_rel query)
      (db.products.filter (search_filter ts query category minp maxp db))
    have hsub : (((List.insertionSort (rank_rel query)
        (db.products.filter (search_filter ts query category minp maxp db))).drop
          offset).take limit).Sublist
        (List.insertionSort (rank_rel query)
          (db.products.filter (search_filter ts query category minp maxp db))) :=
      (List.take_sublist _ _).trans (List.drop_sublist _ _)
    exact List.Pairwise.sublist hsub hsorted
  · intro p h
    unfold relevance_score
    rw [h]
    rfl
  · intro p h1 h2
    unfold relevance_score
    rw [h1, h2]
    rfl
  · intro p h1 h2 h3
    unfold relevance_score
    rw [h1, h2, h3]
    rfl
  · intro p h1 h2 h3
    unfold relevance_score
    rw [h1, h2, h3]
    rfl
  · intro a b hab
    rcases hab with hlt | ⟨heq, hc⟩
    · refine ⟨le_of_lt hlt, ?_⟩
      intro heq2
      rw [heq2] at hlt
      exact absurd hlt (lt_irrefl _)
    · exact ⟨le_of_eq heq.symm, fun _ => hc⟩

/-- Witness for C9 at the concrete scenario: "Red Scarf" gets grade 3, the
tags-only match gets grade 1. -/
theorem lexical_ranking_spec_witness :
    relevance_score "red" red_scarf = 3 ∧ relevance_score "red" tag_hat = 1 :=
  ⟨(lexical_ranking_spec ts_false db_c9 "red" none none none 10 0).2.1 red_scarf
      (by decide),
   (lexical_ranking_spec ts_false db_c9 "red" none none none 10 0).2.2.2.1 tag_hat
      (by decide) (by decide) (by decide)⟩

/-! ## Claim C7 — hybrid fusion lemmas -/

theorem upsert_row_not_mem (r : HybridRow) :
    ∀ l : List HybridRow, r.id ∉ l.map HybridRow.id → upsert_row l r = l ++ [r]
  | [], _ => rfl
  | x :: rest, h => by
    obtain ⟨h1, h2⟩ : r.id ≠ x.id ∧ r.id ∉ rest.map HybridRow.id := by
      simpa using h
    unfold upsert_row
    rw [if_neg (fun he => h1 he.symm), upsert_row_not_mem r rest h2]
    rfl

theorem sem_fold_eq (w : Rat) :
    ∀ (sem : List SemRow) (acc : List HybridRow),
      (∀ r ∈ sem, SemRow.id r ∉ acc.map HybridRow.id) →
      (sem.map SemRow.id).Nodup →
      List.foldl (fun acc r => upsert_row acc
          { id := r.id, semantic_score := r.similarity_score, text_score := 0,
            hybrid_score := r.similarity_score * w }) acc sem
        = acc ++ sem.map (fun r =>
            { id := r.id, semantic_score := r.similarity_score, text_score := 0,
              hybrid_score := r.similarity_score * w })
  | [], acc, _, _ => by simp
  | r :: rest, acc, hfresh, hnodup => by
    obtain ⟨hhead, htail⟩ : (∀ y ∈ rest, ¬ SemRow.id y = SemRow.id r) ∧
        (rest.map SemRow.id).Nodup := by simpa using hnodup
    rw [List.foldl_cons,
      upsert_row_not_mem _ acc (hfresh r (List.mem_cons_self _ _)),
      sem_fold_eq w rest _ ?_ htail]
    · simp
    · intro r2 hr2
      rw [List.map_append]
      simp only [List.mem_append]
      rintro (h | h)
      · exact hfresh r2 (List.mem_cons_of_mem _ hr2) h
      · have h3 : SemRow.id r2 = r.id := by simpa using h
        exact hhead r2 hr2 h3

theorem add_text_row_cases (w : Rat) (t : TextRow) :
    ∀ acc : List HybridRow, (acc.map HybridRow.id).Nodup →
      (t.id ∉ acc.map HybridRow.id ∧
        add_text_row w acc t =
          acc ++ [⟨t.id, 0, t.text_rank, t.text_rank * (1 - w)⟩]) ∨
      (∃ l1 e l2, acc = l1 ++ e :: l2 ∧ HybridRow.id e = t.id ∧
        t.id ∉ l1.map HybridRow.id ∧ t.id ∉ l2.map HybridRow.id ∧
        add_text_row w acc t = l1 ++
          { e with text_score := t.text_rank,
                   hybrid_score := e.hybrid_score + t.text_rank * (1 - w) } :: l2)
  | [], _ => Or.inl ⟨by simp, rfl⟩
  | x :: rest, hnodup => by
    obtain ⟨hhead, htail⟩ : (∀ y ∈ rest, ¬ HybridRow.id y = HybridRow.id x) ∧
        (rest.map HybridRow.id).Nodup := by simpa using hnodup
    by_cases hx : x.id = t.id
    · right
      refine ⟨[], x, rest, by simp, hx, by simp, ?_, ?_⟩
      · intro hmem
        rcases List.mem_map.mp hmem with ⟨y, hy, hyid⟩
        exact hhead y hy (hyid.trans hx.symm)
      · unfold add_text_row
        rw [if_pos hx]
        simp
    · cases add_text_row_cases w t rest htail with
      | inl h =>
        left
        constructor
        · simp only [List.map_cons, List.mem_cons]
          rintro (he | hm)
          · exact hx he.symm
          · exact h.1 hm
        · unfold add_text_row
          rw [if_neg hx, h.2]
          rfl
      | inr h =>
        right
        rcases h with ⟨l1, e, l2, heq, hid, hl1, hl2, hres⟩
        refine ⟨x :: l1, e, l2, by rw [heq]; rfl, hid, ?_, hl2, ?_⟩
        · simp only [List.map_cons, List.mem_cons]
          rintro (he | hm)
          · exact hx he.symm
          · exact hl1 hm
        · unfold add_text_row
          rw [if_neg hx, hres]
          rfl

theorem text_lookup_head (t : TextRow) (rest : List TextRow) :
    text_lookup (t :: rest) t.id = t.text_rank := by
  unfold text_lookup
  rw [List.find?_cons_of_pos _ (by simp)]

theorem text_lookup_cons_ne (t : TextRow) (rest : List TextRow) (x : String)
    (h : x ≠ t.id) : text_lookup (t :: rest) x = text_lookup rest x := by
  unfold text_lookup
  rw [List.find?_cons_of_neg _ ?_]
  simp only [decide_eq_true_eq]
  exact fun he => h he.symm

theorem text_lookup_not_mem (x : String) :
    ∀ text : List TextRow, x ∉ text.map TextRow.id → text_lookup text x = 0
  | [], _ => rfl
  | t :: rest, h => by
    obtain ⟨h1, h2⟩ : ¬ x = TextRow.id t ∧ x ∉ rest.map TextRow.id := by
      simpa using h
    rw [text_lookup_cons_ne t rest x h1]
    exact text_lookup_not_mem x rest h2

theorem sem_lookup_of_mem :
    ∀ sem : List SemRow, (sem.map SemRow.id).Nodup →
      ∀ sr ∈ sem, sem_lookup sem sr.id = sr.similarity_score
  | [], _, sr, h => absurd h (by simp)
  | r :: rest, hnodup, sr, hmem => by
    obtain ⟨hhead, htail⟩ : (∀ y ∈ rest, ¬ SemRow.id y = SemRow.id r) ∧
        (rest.map SemRow.id).Nodup := by simpa using hnodup
    rcases List.mem_cons.mp hmem with heq | hmem2
    · rw [heq]
      unfold sem_lookup
      rw [List.find?_cons_of_pos _ (by simp)]
    · have hne : ¬ (SemRow.id r = SemRow.id sr) := fun he => hhead sr hmem2 he.symm
      unfold sem_lookup
      rw [List.find?_cons_of_neg _ (by simpa using hne)]
      exact sem_lookup_of_mem rest htail sr hmem2

theorem sem_lookup_not_mem (x : String) :
    ∀ sem : List SemRow, x ∉ sem.map SemRow.id → sem_lookup sem x = 0
  | [], _ => rfl
  | r :: rest, h => by
    obtain ⟨h1, h2⟩ : ¬ x = SemRow.id r ∧ x ∉ rest.map SemRow.id := by simpa using h
    unfold sem_lookup
    rw [List.find?_cons_of_neg _ ?_]
    · exact sem_lookup_not_mem x rest h2
    · simp only [decide_eq_true_eq]
      exact fun he => h1 he.symm

theorem text_fold_mem (w : Rat) :
    ∀ (text : List TextRow) (acc : List HybridRow),
      (acc.map HybridRow.id).Nodup → (text.map TextRow.id).Nodup →
      ∀ r' ∈ List.foldl (add_text_row w) acc text,
        (∃ r0 ∈ acc, HybridRow.id r0 = r'.id ∧
          ((r'.id ∉ text.map TextRow.id ∧ r' = r0) ∨
           (r'.id ∈ text.map TextRow.id ∧
            r'.semantic_score = r0.semantic_score ∧
            r'.text_score = text_lookup text r'.id ∧
            r'.hybrid_score = r0.hybrid_score + text_lookup text r'.id * (1 - w))))
        ∨ (r'.id ∉ acc.map HybridRow.id ∧ r'.id ∈ text.map TextRow.id ∧
           r'.semantic_score = 0 ∧
           r'.text_score = text_lookup text r'.id ∧
           r'.hybrid_score = text_lookup text r'.id * (1 - w))
  | [], acc, _, _, r', hr' => by
    refine Or.inl ⟨r', hr', rfl, Or.inl ⟨by simp, rfl⟩⟩
  | t :: rest, acc, hnodup, htext, r', hr' => by
    obtain ⟨hth, htl⟩ : (∀ y ∈ rest, ¬ TextRow.id y = TextRow.id t) ∧
        (rest.map TextRow.id).Nodup := by simpa using htext
    rw [List.foldl_cons] at hr'
    cases add_text_row_cases w t acc hnodup with
    | inl hc =>
      obtain ⟨hfresh, heq⟩ := hc
      rw [heq] at hr'
      have hnodup2 : ((acc ++ [(⟨t.id, 0, t.text_rank, t.text_rank * (1 - w)⟩ : HybridRow)]).map
          HybridRow.id).Nodup := by
        rw [List.map_append]
        rw [List.nodup_append]
        refine ⟨hnodup, by simp, ?_⟩
        intro a ha hb
        have : a = t.id := by simpa using hb
        exact hfresh (this ▸ ha)
      have ih := text_fold_mem w rest _ hnodup2 htl r' hr'
      rcases ih with ⟨r0, hr0mem, hr0id, hcase⟩ | ⟨hnotacc, hinrest, hsem, htxt, hhyb⟩
      · rcases List.mem_append.mp hr0mem with hr0acc | hr0new
        · -- untouched entry of the original dict
          have hr0ne : HybridRow.id r0 ≠ t.id := by
            intro he
            exact hfresh (he ▸ List.mem_map_of_mem HybridRow.id hr0acc)
          rcases hcase with ⟨hnotin, heqr⟩ | ⟨hin, hsem, htxt, hhyb⟩
          · refine Or.inl ⟨r0, hr0acc, hr0id, Or.inl ⟨?_, heqr⟩⟩
            simp only [List.map_cons, List.mem_cons]
            rintro (he | hm)
            · exact hr0ne (hr0id.trans he)
            · exact hnotin hm
          · have hne : r'.id ≠ t.id := hr0id ▸ hr0ne
            refine Or.inl ⟨r0, hr0acc, hr0id, Or.inr ⟨?_, hsem, ?_, ?_⟩⟩
            · simp only [List.map_cons, List.mem_cons]
              exact Or.inr hin
            · rw [text_lookup_cons_ne t rest _ hne]
              exact htxt
            · rw [text_lookup_cons_ne t rest _ hne]
              exact hhyb
        · -- the fresh entry appended for t
          have hr0eq : r0 = ⟨t.id, 0, t.text_rank, t.text_rank * (1 - w)⟩ := by
            simpa using hr0new
          have hrid : r'.id = t.id := by rw [← hr0id, hr0eq]
          have hnotrest : r'.id ∉ rest.map TextRow.id := by
            intro hm
            rcases List.mem_map.mp hm with ⟨y, hy, hyid⟩
            exact hth y hy (hyid.trans hrid)
          rcases hcase with ⟨_, heqr⟩ | ⟨hin, _, _, _⟩
          · refine Or.inr ⟨?_, ?_, ?_, ?_, ?_⟩
            · rw [hrid]
              exact hfresh
            · simp only [List.map_cons, List.mem_cons]
              exact Or.inl hrid
            · rw [heqr, hr0eq]
            · rw [heqr, hr0eq]
              show t.text_rank = text_lookup (t :: rest) t.id
              rw [text_lookup_head]
            · rw [heqr, hr0eq]
              show t.text_rank * (1 - w) = text_lookup (t :: rest) t.id * (1 - w)
              rw [text_lookup_head]
          · exact absurd hin (hrid ▸ hnotrest)
      · -- entry created while folding rest
        have hne : r'.id ≠ t.id := by
          intro he
          apply hnotacc
          rw [List.map_append]
          simp [he]
        refine Or.inr ⟨?_, ?_, hsem, ?_, ?_⟩
        · intro hm
          apply hnotacc
          rw [List.map_append]
          simp [hm]
        · simp only [List.map_cons, List.mem_cons]
          exact Or.inr hinrest
        · rw [text_lookup_cons_ne t rest _ hne]
          exact htxt
        · rw [text_lookup_cons_ne t rest _ hne]
          exact hhyb
    | inr hc =>
      obtain ⟨l1, e, l2, heqacc, heid, hl1, hl2, heq⟩ := hc
      rw [heq] at hr'
      have hids : ((l1 ++ { e with text_score := t.text_rank, hybrid_score := e.hybrid_score + t.text_rank * (1 - w) } :: l2).map HybridRow.id) = acc.map HybridRow.id := by
        rw [heqacc]
        simp
      have hnodup2 : ((l1 ++ { e with text_score := t.text_rank, hybrid_score := e.hybrid_score + t.text_rank * (1 - w) } :: l2).map HybridRow.id).Nodup := by
        rw [hids]
        exact hnodup
      have ih := text_fold_mem w rest _ hnodup2 htl r' hr'
      rcases ih with ⟨r0, hr0mem, hr0id, hcase⟩ | ⟨hnotacc, hinrest, hsem, htxt, hhyb⟩
      · rcases List.mem_append.mp hr0mem with hr0l1 | hr0r
        · -- untouched entry in l1
          have hr0acc : r0 ∈ acc := by
            rw [heqacc]
            exact List.mem_append_left _ hr0l1
          have hr0ne : HybridRow.id r0 ≠ t.id := by
            intro he
            exact hl1 (he ▸ List.mem_map_of_mem HybridRow.id hr0l1)
          rcases hcase with ⟨hnotin, heqr⟩ | ⟨hin, hsem, htxt, hhyb⟩
          · refine Or.inl ⟨r0, hr0acc, hr0id, Or.inl ⟨?_, heqr⟩⟩
            simp only [List.map_cons, List.mem_cons]
            rintro (he | hm)
            · exact hr0ne (hr0id.trans he)
            · exact hnotin hm
          · have hne : r'.id ≠ t.id := hr0id ▸ hr0ne
            refine Or.inl ⟨r0, hr0acc, hr0id, Or.inr ⟨?_, hsem, ?_, ?_⟩⟩
            · simp only [List.map_cons, List.mem_cons]
              exact Or.inr hin
            · rw [text_lookup_cons_ne t rest _ hne]
              exact htxt
            · rw [text_lookup_cons_ne t rest _ hne]
              exact hhyb
        · rcases List.mem_cons.mp hr0r with hr0e | hr0l2
          · -- the replaced entry for t
            have hrid : r'.id = t.id := by
              rw [← hr0id, hr0e, ← heid]
            have hnotrest : r'.id ∉ rest.map TextRow.id := by
              intro hm
              rcases List.mem_map.mp hm with ⟨y, hy, hyid⟩
              exact hth y hy (hyid.trans hrid)
            rcases hcase with ⟨_, heqr⟩ | ⟨hin, _, _, _⟩
            · have hemem : e ∈ acc := by
                rw [heqacc]
                exact List.mem_append_right _ (List.mem_cons_self _ _)
              refine Or.inl ⟨e, hemem, ?_, Or.inr ⟨?_, ?_, ?_, ?_⟩⟩
              · rw [heid, hrid]
              · simp only [List.map_cons, List.mem_cons]
                exact Or.inl hrid
              · rw [heqr, hr0e]
              · rw [heqr, hr0e]
                show t.text_rank = text_lookup (t :: rest) e.id
                rw [heid, text_lookup_head]
              · rw [heqr, hr0e]
                show e.hybrid_score + t.text_rank * (1 - w) = e.hybrid_score + text_lookup (t :: rest) e.id * (1 - w)
                rw [heid, text_lookup_head]
            · exact absurd hin (hrid ▸ hnotrest)
          · -- untouched entry in l2
            have hr0acc : r0 ∈ acc := by
              rw [heqacc]
              exact List.mem_append_right _ (List.mem_cons_of_mem _ hr0l2)
            have hr0ne : HybridRow.id r0 ≠ t.id := by
              intro he
              exact hl2 (he ▸ List.mem_map_of_mem HybridRow.id hr0l2)
            rcases hcase with ⟨hnotin, heqr⟩ | ⟨hin, hsem, htxt, hhyb⟩
            · refine Or.inl ⟨r0, hr0acc, hr0id, Or.inl ⟨?_, heqr⟩⟩
              simp only [List.map_cons, List.mem_cons]
              rintro (he | hm)
              · exact hr0ne (hr0id.trans he)
              · exact hnotin hm
            · have hne : r'.id ≠ t.id := hr0id ▸ hr0ne
              refine Or.inl ⟨r0, hr0acc, hr0id, Or.inr ⟨?_, hsem, ?_, ?_⟩⟩
              · simp only [List.map_cons, List.mem_cons]
                exact Or.inr hin
              · rw [text_lookup_cons_ne t rest _ hne]
                exact htxt
              · rw [text_lookup_cons_ne t rest _ hne]
                exact hhyb
      · -- entry created while folding rest
        rw [hids] at hnotacc
        have hne : r'.id ≠ t.id := by
          intro he
          apply hnotacc
          rw [heqacc, he, ← heid]
          simp
        refine Or.inr ⟨hnotacc, ?_, hsem, ?_, ?_⟩
        · simp only [List.map_cons, List.mem_cons]
          exact Or.inr hinrest
        · rw [text_lookup_cons_ne t rest _ hne]
          exact htxt
        · rw [text_lookup_cons_ne t rest _ hne]
          exact hhyb

theorem text_fold_ids (w : Rat) :
    ∀ (text : List TextRow) (acc : List HybridRow),
      (acc.map HybridRow.id).Nodup → (text.map TextRow.id).Nodup →
      (List.foldl (add_text_row w) acc text).map HybridRow.id
        = acc.map HybridRow.id ++
          (text.map TextRow.id).filter (fun i => decide (i ∉ acc.map HybridRow.id))
  | [], acc, _, _ => by simp
  | t :: rest, acc, hnodup, htext => by
    obtain ⟨hth, htl⟩ : (∀ y ∈ rest, ¬ TextRow.id y = TextRow.id t) ∧
        (rest.map TextRow.id).Nodup := by simpa using htext
    rw [List.foldl_cons]
    cases add_text_row_cases w t acc hnodup with
    | inl hc =>
      obtain ⟨hfresh, heq⟩ := hc
      rw [heq]
      have hnodup2 : ((acc ++ [(⟨t.id, 0, t.text_rank, t.text_rank * (1 - w)⟩ : HybridRow)]).map
          HybridRow.id).Nodup := by
        rw [List.map_append, List.nodup_append]
        refine ⟨hnodup, by simp, ?_⟩
        intro a ha hb
        have : a = t.id := by simpa using hb
        exact hfresh (this ▸ ha)
      rw [text_fold_ids w rest _ hnodup2 htl]
      have hfilter : (rest.map TextRow.id).filter
            (fun i => decide (i ∉ (acc ++
              [(⟨t.id, 0, t.text_rank, t.text_rank * (1 - w)⟩ : HybridRow)]).map HybridRow.id))
          = (rest.map TextRow.id).filter (fun i => decide (i ∉ acc.map HybridRow.id)) := by
        apply List.filter_congr
        intro i hi
        rcases List.mem_map.mp hi with ⟨y, hy, hyid⟩
        have hne : i ≠ t.id := fun he => hth y hy (hyid.trans he)
        rw [decide_eq_decide]
        rw [List.map_append]
        simp [hne]
      rw [hfilter, List.map_cons, List.filter_cons, if_pos (by simpa using hfresh),
        List.map_append, List.append_assoc]
      rfl
    | inr hc =>
      obtain ⟨l1, e, l2, heqacc, heid, hl1, hl2, heq⟩ := hc
      rw [heq]
      have hids : ((l1 ++ { e with text_score := t.text_rank, hybrid_score := e.hybrid_score + t.text_rank * (1 - w) } :: l2).map HybridRow.id) = acc.map HybridRow.id := by
        rw [heqacc]
        simp
      have hnodup2 : ((l1 ++ { e with text_score := t.text_rank, hybrid_score := e.hybrid_score + t.text_rank * (1 - w) } :: l2).map HybridRow.id).Nodup := by
        rw [hids]
        exact hnodup
      rw [text_fold_ids w rest _ hnodup2 htl, hids]
      have hmem : t.id ∈ acc.map HybridRow.id := by
        rw [heqacc, ← heid]
        simp
      rw [List.map_cons, List.filter_cons, if_neg (by simp [hmem])]

/-- Claim C7: hybrid search requests `2 × limit` candidates from each pass (the
output only depends on those prefixes), unions them by product id, scores each
product `hybridScore = semanticScore·w + textScore·(1−w)` with a missing side
contributing 0, sorts by hybrid score descending and truncates to `limit`; at
the spec scenario (semantic 0.8, text 0.6, w = 0.7) the hybrid score is 0.74. -/
theorem hybrid_fusion_spec (semRows : List SemRow) (textRows : List TextRow)
    (limit : Nat) (w : Rat)
    (hsem : ((semRows.take (limit * 2)).map SemRow.id).Nodup)
    (htext : ((textRows.take (limit * 2)).map TextRow.id).Nodup) :
    (hybrid_search none none false false semRows textRows limit w).length ≤ limit ∧
    List.Sorted (fun a b : HybridRow => b.hybrid_score ≤ a.hybrid_score)
      (hybrid_search none none false false semRows textRows limit w) ∧
    (∀ r ∈ hybrid_search none none false false semRows textRows limit w,
      r.semantic_score = sem_lookup (semRows.take (limit * 2)) r.id ∧
      r.text_score = text_lookup (textRows.take (limit * 2)) r.id ∧
      r.hybrid_score = r.semantic_score * w + r.text_score * (1 - w)) ∧
    ((combine_results w (semRows.take (limit * 2)) (textRows.take (limit * 2))).map
        HybridRow.id
      = (semRows.take (limit * 2)).map SemRow.id ++
        ((textRows.take (limit * 2)).map TextRow.id).filter
          (fun i => decide (i ∉ (semRows.take (limit * 2)).map SemRow.id))) ∧
    hybrid_search none none false false semRows textRows limit w
      = hybrid_search none none false false (semRows.take (limit * 2))
          (textRows.take (limit * 2)) limit w ∧
    (hybrid_search none none false false [⟨"p", 8 / 10⟩] [⟨"p", 6 / 10⟩] 5 (7 / 10)).map
        HybridRow.hybrid_score = [74 / 100] := by
  have hout : hybrid_search none none false false semRows textRows limit w
      = (hybrid_sort (combine_results w (semRows.take (limit * 2))
          (textRows.take (limit * 2)))).take limit := rfl
  have hC : combine_results w (semRows.take (limit * 2)) (textRows.take (limit * 2))
      = (textRows.take (limit * 2)).foldl (add_text_row w)
          ((semRows.take (limit * 2)).map (fun r =>
            { id := r.id, semantic_score := r.similarity_score, text_score := 0,
              hybrid_score := r.similarity_score * w })) := by
    unfold combine_results
    rw [sem_fold_eq w (semRows.take (limit * 2)) [] (by simp) hsem]
    rw [List.nil_append]
  have hbase_ids : (((semRows.take (limit * 2)).map (fun r =>
      ({ id := r.id, semantic_score := r.similarity_score, text_score := 0,
         hybrid_score := r.similarity_score * w } : HybridRow))).map HybridRow.id)
      = (semRows.take (limit * 2)).map SemRow.id := by
    rw [List.map_map]
    exact List.map_congr_left (fun x _ => rfl)
  have hbase_nodup : (((semRows.take (limit * 2)).map (fun r =>
      ({ id := r.id, semantic_score := r.similarity_score, text_score := 0,
         hybrid_score := r.similarity_score * w } : HybridRow))).map HybridRow.id).Nodup := by
    rw [hbase_ids]
    exact hsem
  refine ⟨?_, ?_, ?_, ?_, ?_, ?_⟩
  · rw [hout]
    exact List.length_take_le _ _
  · rw [hout]
    exact List.Pairwise.sublist (List.take_sublist _ _)
      (List.sorted_insertionSort _ _)
  · intro r hr
    rw [hout] at hr
    have hrC : r ∈ combine_results w (semRows.take (limit * 2)) (textRows.take (limit * 2)) := by
      have h1 := List.mem_of_mem_take hr
      exact (List.perm_insertionSort _ _).mem_iff.mp h1
    rw [hC] at hrC
    have hforall := text_fold_mem w (textRows.take (limit * 2)) _ hbase_nodup htext r hrC
    rcases hforall with ⟨r0, hr0, hid, hcase⟩ | ⟨hnotbase, hinT, hsem0, htxtEq, hhybEq⟩
    · rcases List.mem_map.mp hr0 with ⟨sr, hsr, hfr⟩
      have hr0sem : r0.semantic_score = sr.similarity_score := by rw [← hfr]
      have hr0txt : r0.text_score = 0 := by rw [← hfr]
      have hr0hyb : r0.hybrid_score = sr.similarity_score * w := by rw [← hfr]
      have hr0id2 : HybridRow.id r0 = sr.id := by rw [← hfr]
      have hlook : sem_lookup (semRows.take (limit * 2)) r.id = sr.similarity_score := by
        rw [← hid, hr0id2]
        exact sem_lookup_of_mem _ hsem sr hsr
      rcases hcase with ⟨hnot, heqr⟩ | ⟨hin, hsemEq, htxtEq, hhybEq⟩
      · have e1 : r.semantic_score = r0.semantic_score := by rw [heqr]
        have e2 : r.text_score = r0.text_score := by rw [heqr]
        have e3 : r.hybrid_score = r0.hybrid_score := by rw [heqr]
        refine ⟨?_, ?_, ?_⟩
        · rw [e1, hr0sem, hlook]
        · rw [e2, hr0txt, text_lookup_not_mem r.id _ hnot]
        · rw [e3, hr0hyb, e1, hr0sem, e2, hr0txt]
          ring
      · refine ⟨?_, htxtEq, ?_⟩
        · rw [hsemEq, hr0sem, hlook]
        · rw [hhybEq, hr0hyb, hsemEq, hr0sem, htxtEq]
    · rw [hbase_ids] at hnotbase
      have hlook0 : sem_lookup (semRows.take (limit * 2)) r.id = 0 :=
        sem_lookup_not_mem _ _ hnotbase
      refine ⟨?_, htxtEq, ?_⟩
      · rw [hsem0, hlook0]
      · rw [hhybEq, hsem0, htxtEq]
        ring
  · rw [hC, text_fold_ids w _ _ hbase_nodup htext, hbase_ids]
  · show (hybrid_sort (combine_results w ((semRows.take (limit * 2)))
        ((textRows.take (limit * 2))))).take limit
      = (hybrid_sort (combine_results w (((semRows.take (limit * 2)).take (limit * 2)))
        (((textRows.take (limit * 2)).take (limit * 2))))).take limit
    rw [List.take_take, List.take_take, Nat.min_self]
  · norm_num [hybrid_search, semantic_search, combine_results, add_text_row,
      upsert_row, hybrid_sort, List.insertionSort, List.orderedInsert]

/-- Witness for C7 at the spec scenario: one shared product with semantic 0.8
and text 0.6 at weight 0.7 fuses to exactly 0.74. -/
theorem hybrid_fusion_spec_witness :
    (hybrid_search none none false false [⟨"p", 8 / 10⟩] [⟨"p", 6 / 10⟩] 5 (7 / 10)).length ≤ 5 ∧
    (hybrid_search none none false false [⟨"p", 8 / 10⟩] [⟨"p", 6 / 10⟩] 5 (7 / 10)).map
        HybridRow.hybrid_score = [74 / 100] := by
  have h := hybrid_fusion_spec [⟨"p", 8 / 10⟩] [⟨"p", 6 / 10⟩] 5 (7 / 10)
    (by decide) (by decide)
  exact ⟨h.1, h.2.2.2.2.2⟩

/-! ## Claim C5 — cache-key derivation -/

theorem chars_le_total : ∀ x y : List Char, chars_le x y = true ∨ chars_le y x = true
  | [], _ => Or.inl rfl
  | _ :: _, [] => Or.inr rfl
  | a :: as, b :: bs => by
    unfold chars_le
    rcases Nat.lt_trichotomy a.toNat b.toNat with h | h | h
    · left
      rw [if_pos h]
    · rw [if_neg (by omega), if_neg (by omega), if_neg (by omega), if_neg (by omega)]
      exact chars_le_total as bs
    · right
      rw [if_pos h]

theorem chars_le_trans : ∀ x y z : List Char,
    chars_le x y = true → chars_le y z = true → chars_le x z = true
  | [], _, _, _, _ => rfl
  | _ :: _, [], _, h1, _ => absurd h1 (by simp [chars_le])
  | _ :: _, _ :: _, [], _, h2 => absurd h2 (by simp [chars_le])
  | a :: as, b :: bs, c :: cs, h1, h2 => by
    unfold chars_le at h1 h2 ⊢
    rcases Nat.lt_trichotomy a.toNat b.toNat with hab | hab | hab
    · rcases Nat.lt_trichotomy b.toNat c.toNat with hbc | hbc | hbc
      · rw [if_pos (by omega)]
      · rw [if_pos (by omega)]
      · rw [if_neg (by omega), if_pos (by omega)] at h2
        exact absurd h2 (by simp)
    · rcases Nat.lt_trichotomy b.toNat c.toNat with hbc | hbc | hbc
      · rw [if_pos (by omega)]
      · rw [if_neg (by omega), if_neg (by omega)] at h1
        rw [if_neg (by omega), if_neg (by omega)] at h2
        rw [if_neg (by omega), if_neg (by omega)]
        exact chars_le_trans as bs cs h1 h2
      · rw [if_neg (by omega), if_pos (by omega)] at h2
        exact absurd h2 (by simp)
    · rw [if_neg (by omega), if_pos (by omega)] at h1
      exact absurd h1 (by simp)

theorem chars_le_antisymm : ∀ x y : List Char,
    chars_le x y = true → chars_le y x = true → x = y
  | [], [], _, _ => rfl
  | [], _ :: _, _, h2 => absurd h2 (by simp [chars_le])
  | _ :: _, [], h1, _ => absurd h1 (by simp [chars_le])
  | a :: as, b :: bs, h1, h2 => by
    unfold chars_le at h1 h2
    rcases Nat.lt_trichotomy a.toNat b.toNat with hab | hab | hab
    · rw [if_neg (by omega), if_pos (by omega)] at h2
      exact absurd h2 (by simp)
    · rw [if_neg (by omega), if_neg (by omega)] at h1
      rw [if_neg (by omega), if_neg (by omega)] at h2
      have heq : a = b := by
        rw [← Char.ofNat_toNat a, ← Char.ofNat_toNat b, hab]
      rw [heq, chars_le_antisymm as bs h1 h2]
    · rw [if_neg (by omega), if_pos (by omega)] at h1
      exact absurd h1 (by simp)

theorem sort_keys_sorted (l : List (String × β)) :
    List.Sorted (fun a b : String × β => str_lex_le a.1 b.1 = true) (sort_keys_str l) := by
  haveI : IsTotal (String × β) (fun a b => str_lex_le a.1 b.1 = true) :=
    ⟨fun a b => chars_le_total a.1.data b.1.data⟩
  haveI : IsTrans (String × β) (fun a b => str_lex_le a.1 b.1 = true) :=
    ⟨fun a b c h1 h2 => chars_le_trans a.1.data b.1.data c.1.data h1 h2⟩
  exact List.sorted_insertionSort _ _

theorem str_lex_le_antisymm (a b : String) (h1 : str_lex_le a b = true)
    (h2 : str_lex_le b a = true) : a = b := by
  cases a with | mk ad =>
  cases b with | mk bd =>
  rw [chars_le_antisymm ad bd h1 h2]

/-- Sorting by key is insensitive to the insertion order of a dict with
distinct keys: any two permutations sort to the same canonical list. -/
theorem sort_keys_eq_of_perm (l1 l2 : List (String × β)) (hp : l1.Perm l2)
    (hnodup : (l1.map Prod.fst).Nodup) : sort_keys_str l1 = sort_keys_str l2 := by
  haveI : IsAntisymm (String × β)
      (fun a b => str_lex_le a.1 b.1 = true ∧ a.1 ≠ b.1) :=
    ⟨fun a b h1 h2 => absurd (str_lex_le_antisymm a.1 b.1 h1.1 h2.1) h1.2⟩
  have hperm : List.Perm (sort_keys_str l1) (sort_keys_str l2) :=
    ((List.perm_insertionSort _ l1).trans hp).trans (List.perm_insertionSort _ l2).symm
  have hn1 : ((sort_keys_str l1).map Prod.fst).Nodup :=
    (((List.perm_insertionSort _ l1).map Prod.fst).nodup_iff).mpr hnodup
  have hn2 : ((sort_keys_str l2).map Prod.fst).Nodup :=
    ((hperm.map Prod.fst).nodup_iff).mp hn1
  have hs1 : (sort_keys_str l1).Pairwise
      (fun a b : String × β => str_lex_le a.1 b.1 = true ∧ a.1 ≠ b.1) :=
    (sort_keys_sorted l1).and (List.pairwise_map.mp hn1)
  have hs2 : (sort_keys_str l2).Pairwise
      (fun a b : String × β => str_lex_le a.1 b.1 = true ∧ a.1 ≠ b.1) :=
    (sort_keys_sorted l2).and (List.pairwise_map.mp hn2)
  exact List.eq_of_perm_of_sorted hperm hs1 hs2

theorem normalize_search_params_eq (q : String) (fe : List (String × FV)) :
    normalize_search_params q fe
      = [("filters", Sum.inr (sort_keys_str fe)), ("query", Sum.inl q)] := rfl

theorem filters_entries_sorted (f : SearchFilters) :
    sort_keys_str (filters_entries f) =
      [("category", f.category.map Sum.inl),
       ("limit", some (Sum.inr (Sum.inr f.limit))),
       ("max_price", f.max_price.map (fun q => Sum.inr (Sum.inl q))),
       ("min_price", f.min_price.map (fun q => Sum.inr (Sum.inl q))),
       ("offset", some (Sum.inr (Sum.inr f.offset)))] := rfl

theorem filters_entries_inj (f1 f2 : SearchFilters)
    (h : sort_keys_str (filters_entries f1) = sort_keys_str (filters_entries f2)) :
    f1 = f2 := by
  rw [filters_entries_sorted, filters_entries_sorted] at h
  obtain ⟨c1, mn1, mx1, l1, o1⟩ := f1
  obtain ⟨c2, mn2, mx2, l2, o2⟩ := f2
  simp only [List.cons.injEq, Prod.mk.injEq, true_and, and_true,
    Option.some.injEq, Sum.inr.injEq, Sum.inl.injEq] at h
  obtain ⟨h1, h2, h3, h4, h5⟩ := h
  simp only [SearchFilters.mk.injEq]
  refine ⟨Option.map_injective Sum.inl_injective h1, ?_, ?_, h2, h5⟩
  · exact Option.map_injective
      (fun a b hab => Sum.inl_injective (Sum.inr_injective hab)) h4
  · exact Option.map_injective
      (fun a b hab => Sum.inl_injective (Sum.inr_injective hab)) h3

theorem string_append_cancel_left (s a b : String) (h : s ++ a = s ++ b) : a = b := by
  cases s with | mk sd =>
  cases a with | mk ad =>
  cases b with | mk bd =>
  simp only [String.ext_iff] at h ⊢
  exact List.append_cancel_left h

theorem unary_digest_injective : Function.Injective unary_digest := by
  intro x y h
  have h2 : List.replicate (Encodable.encode x) 'a'
      = List.replicate (Encodable.encode y) 'a' := congrArg String.data h
  have h3 : Encodable.encode x = Encodable.encode y := by
    have := congrArg List.length h2
    simpa using this
  exact Encodable.encode_injective h3

/-- Claim C5: cache-key derivation is a pure, order-independent function of the
operation name and the normalized argument structure — permuting the insertion
order of the (distinct-keyed) filters dict leaves the normalized structure, and
hence the key, unchanged — and, provided the external serialize-and-md5 digest
is collision-free on normalized structures (the negligible-collision contract),
two calls differing in the query or in any filter argument produce different
keys. -/
theorem cache_key_spec :
    (∀ (q : String) (l1 l2 : List (String × FV)),
      l1.Perm l2 → (l1.map Prod.fst).Nodup →
      normalize_search_params q l1 = normalize_search_params q l2) ∧
    (∀ digest : NormJson → String, Function.Injective digest →
      ∀ q1 f1 q2 f2, generate_cache_key digest q1 f1 = generate_cache_key digest q2 f2 →
        q1 = q2 ∧ f1 = f2) := by
  constructor
  · intro q l1 l2 hp hnodup
    rw [normalize_search_params_eq, normalize_search_params_eq,
      sort_keys_eq_of_perm l1 l2 hp hnodup]
  · intro digest hinj q1 f1 q2 f2 h
    unfold generate_cache_key at h
    have h2 := hinj (string_append_cancel_left "search:" _ _ h)
    rw [normalize_search_params_eq, normalize_search_params_eq] at h2
    simp only [List.cons.injEq, Prod.mk.injEq, true_and, and_true,
      Sum.inr.injEq, Sum.inl.injEq] at h2
    exact ⟨h2.2, filters_entries_inj f1 f2 h2.1⟩

/-- Witness for C5 at concrete inputs: a permuted filters dict normalizes
identically, and with the concrete injective digest, equal keys force equal
arguments. -/
theorem cache_key_spec_witness :
    normalize_search_params "red"
        [("category", some (Sum.inl "c")), ("min_price", none)]
      = normalize_search_params "red"
        [("min_price", none), ("category", some (Sum.inl "c"))] ∧
    ("red" : String) = "red" ∧
    ({ category := some "c", min_price := none, max_price := none,
       limit := 20, offset := 0 } : SearchFilters)
      = { category := some "c", min_price := none, max_price := none,
          limit := 20, offset := 0 } := by
  constructor
  · exact cache_key_spec.1 "red"
      [("category", some (Sum.inl "c")), ("min_price", none)]
      [("min_price", none), ("category", some (Sum.inl "c"))]
      (by decide) (by decide)
  · exact cache_key_spec.2 unary_digest unary_digest_injective "red"
      { category := some "c", min_price := none, max_price := none,
        limit := 20, offset := 0 } "red"
      { category := some "c", min_price := none, max_price := none,
        limit := 20, offset := 0 } rfl
